import Mathlib

/-!
# Verification of the Prism telemetry dashboard core

A shallow embedding, in Lean 4, of the telemetry core of the dashboard
service: the in-memory store (`InMemoryStore`), the OTLP protocol adapters
(gRPC helpers in `OtlpHelpers` / the gRPC `Export` services, and the JSON
parsing methods of `InMemoryStore`), and the WebSocket fan-out queue
(`WebSocketStreamService`).

Modelling conventions, applied uniformly:

* C# `DateTime` values are represented by their Unix-epoch millisecond
  count as a `Nat`; `DateTimeOffset.FromUnixTimeMilliseconds(n).UtcDateTime`
  is therefore the identity, and `DateTime.UtcNow` is passed in explicitly
  as a `now : Nat` argument wherever the source reads the clock.
* C# `long`/`int`/`ulong` are `Int`/`Nat`; where a .NET accessor enforces a
  range (`GetUInt64`, `GetInt32`, ...) the range check is explicit.
* IEEE `double` values are only ever copied verbatim on the code paths we
  model (never computed with), so they are carried by an opaque integer
  carrier `DoubleVal`; where the source renders a double with `ToString`
  the carrier's integer rendering stands in.
* `ConcurrentQueue<T>` is a `List` whose head is the oldest element;
  `ConcurrentDictionary<K,V>` / `Dictionary<K,V>` are association lists
  with unique keys (lookup takes the first match, as the dictionary has at
  most one).
* .NET exceptions are `Except String`; a `try { ... } catch { return null }`
  block becomes `Except.toOption`-style matching.
* Each method is sequential in the source (the store's concurrent
  collections make each call atomic enough that the spec's claims are about
  the sequential semantics of complete calls), so calls are modelled as
  pure state transformers `Store → Store × α`.
-/

namespace Prism

/-! ## Domain model (`Models` namespace of the source) -/

/-- `Models.LogLevel` (five-level enum). -/
inductive LogLevel where
  | Debug
  | Info
  | Warn
  | Error
  | Fatal
deriving DecidableEq, Repr

/-- `Models.MetricType`. Enum default (value 0) is `Counter`. -/
inductive MetricType where
  | Counter
  | Gauge
  | Histogram
  | Sum
deriving DecidableEq, Repr

/-- Opaque carrier for IEEE doubles: on every modelled code path a double is
only copied from input to output, never computed with, so any carrier with
decidable equality is faithful. -/
abbrev DoubleVal := Int

/-- The values that can end up in a log entry's
`Dictionary<string, object>` attribute map: scalars (both adapters) and,
on the gRPC path (`GetAnyValueAsObject`), nested lists and dictionaries. -/
inductive AttrValue where
  | str (s : String)
  | int (n : Int)
  | double (d : DoubleVal)
  | bool (b : Bool)
  | list (vs : List AttrValue)
  | dict (kvs : List (String × AttrValue))

/-- `Models.ResourceInfo`. -/
structure ResourceInfo where
  serviceName : String
  serviceVersion : Option String
  deploymentEnvironment : Option String
deriving DecidableEq, Repr

/-- `Models.LogEntry` (immutable record; `Id` is assigned by the store). -/
structure LogEntry where
  id : Nat := 0
  traceId : String
  spanId : String
  timestamp : Nat
  level : LogLevel
  serviceName : String
  message : String
  attributes : List (String × AttrValue) := []
  resource : Option ResourceInfo := none

/-- `Models.MetricEntry`. -/
structure MetricEntry where
  id : Nat := 0
  name : String
  description : Option String := none
  unit : Option String := none
  value : DoubleVal
  type : MetricType := .Counter
  timestamp : Nat
  serviceName : String
  attributes : List (String × String) := []
deriving DecidableEq, Repr

/-- `Models.SpanEvent`. -/
structure SpanEvent where
  name : String
  timestamp : Nat
  attributes : List (String × String) := []
deriving DecidableEq, Repr

/-- `Models.SpanLink`. -/
structure SpanLink where
  traceId : String
  spanId : String
deriving DecidableEq, Repr

/-- `Models.TraceSpan`. `durationMs` is the (signed) difference of the two
millisecond timestamps. -/
structure TraceSpan where
  traceId : String
  spanId : String
  parentSpanId : Option String
  name : String
  startTime : Nat
  endTime : Nat
  durationMs : Int
  statusCode : Int := 0
  statusMessage : Option String := none
  kind : Int := 0
  serviceName : String
  attributes : List (String × String) := []
  events : List SpanEvent := []
  links : List SpanLink := []
deriving DecidableEq, Repr

/-! ## Dictionary helpers

Association lists with unique keys standing in for the source's
`(Concurrent)Dictionary`.  `dictLookup` is `TryGetValue`, `dictSet` is the
indexer `d[k] = v`, and `getOrAddEnqueue` is
`GetOrAddQueue(dict, key).Enqueue(item)`. -/

def dictLookup (d : List (String × α)) (k : String) : Option α :=
  (d.find? (fun p => p.1 == k)).map (·.2)

def dictSet (d : List (String × α)) (k : String) (v : α) : List (String × α) :=
  if d.any (fun p => p.1 == k) then
    d.map (fun p => if p.1 == k then (p.1, v) else p)
  else
    d ++ [(k, v)]

def getOrAddEnqueue (d : List (String × List α)) (k : String) (x : α) :
    List (String × List α) :=
  if d.any (fun p => p.1 == k) then
    d.map (fun p => if p.1 == k then (p.1, p.2 ++ [x]) else p)
  else
    d ++ [(k, [x])]

/-! ## LINQ `OrderByDescending(key)`

A stable descending sort: an element is placed before every element with a
strictly smaller key and before every *later* element with an equal key,
exactly LINQ's documented stable ordering. -/

def insertByDesc (key : α → Nat) (x : α) : List α → List α
  | [] => [x]
  | y :: ys => if key y ≤ key x then x :: y :: ys else y :: insertByDesc key x ys

def orderByDescending (key : α → Nat) (l : List α) : List α :=
  l.foldr (insertByDesc key) []

/-! ## `InMemoryStore`

The store's configured capacities (`_maxLogs`, `_maxMetrics`) are the
constants of the source. -/

def maxLogs : Nat := 100000

def maxMetrics : Nat := 100000

/-- `TrimLogsIfNeeded` / `TrimMetricsIfNeeded`:
`while (q.Count > max && q.TryDequeue(out _)) { }` — dequeue (drop the
oldest element, the list head) while the count exceeds the capacity.
`TryDequeue` fails only on the empty queue, which also ends the loop. -/
def trimQueue (max : Nat) : List α → List α
  | [] => []
  | x :: xs => if xs.length + 1 > max then trimQueue max xs else x :: xs

/-- The mutable state of one `InMemoryStore` instance: the two id counters,
the two primary `ConcurrentQueue`s and the four secondary indexes.
(The trace side of the store is not involved in any claim under proof;
trace records only pass through the protocol adapters here.) -/
structure Store where
  logIdCounter : Nat := 0
  metricIdCounter : Nat := 0
  logs : List LogEntry := []
  metrics : List MetricEntry := []
  logsByService : List (String × List LogEntry) := []
  logsByTraceId : List (String × List LogEntry) := []
  metricsByName : List (String × List MetricEntry) := []
  metricsByService : List (String × List MetricEntry) := []

/-- A freshly constructed `InMemoryStore`. -/
def Store.init : Store := {}

/-- `InMemoryStore.AddLog`: assign the next id, enqueue into the primary
queue and both indexes (the trace-id index only for a non-empty trace id),
then trim the primary queue. Returns the assigned id. -/
def Store.addLog (s : Store) (log : LogEntry) : Store × Nat :=
  let id := s.logIdCounter + 1
  let logWithId := { log with id := id }
  ({ s with
      logIdCounter := id
      logs := trimQueue maxLogs (s.logs ++ [logWithId])
      logsByService := getOrAddEnqueue s.logsByService log.serviceName logWithId
      logsByTraceId :=
        if log.traceId ≠ "" then
          getOrAddEnqueue s.logsByTraceId log.traceId logWithId
        else s.logsByTraceId }, id)

/-- `InMemoryStore.AddMetric`. -/
def Store.addMetric (s : Store) (metric : MetricEntry) : Store × Nat :=
  let id := s.metricIdCounter + 1
  let metricWithId := { metric with id := id }
  ({ s with
      metricIdCounter := id
      metrics := trimQueue maxMetrics (s.metrics ++ [metricWithId])
      metricsByName := getOrAddEnqueue s.metricsByName metric.name metricWithId
      metricsByService :=
        getOrAddEnqueue s.metricsByService metric.serviceName metricWithId }, id)

/-- `string.IsNullOrEmpty` on a nullable string. -/
def isNullOrEmpty : Option String → Bool
  | none => true
  | some s => s == ""

/-- `InMemoryStore.QueryLogs`: pick the trace-id index, else the
service-name index, else the primary queue; apply the remaining filters;
order by descending timestamp (stable); take `limit`. -/
def Store.queryLogs (s : Store) (serviceName : Option String)
    (level : Option LogLevel) (startTime endTime : Option Nat)
    (traceId : Option String) (limit : Nat) : List LogEntry :=
  let idxTrace : Option (List LogEntry) :=
    match traceId with
    | some t => if t == "" then none else dictLookup s.logsByTraceId t
    | none => none
  let idxService : Option (List LogEntry) :=
    match serviceName with
    | some n => if n == "" then none else dictLookup s.logsByService n
    | none => none
  let base : List LogEntry :=
    match idxTrace with
    | some q => q
    | none =>
      match idxService with
      | some q => q
      | none => s.logs
  let q1 := match level with
    | some lv => base.filter (fun l => l.level == lv)
    | none => base
  let q2 := match startTime with
    | some st => q1.filter (fun l => st ≤ l.timestamp)
    | none => q1
  let q3 := match endTime with
    | some et => q2.filter (fun l => l.timestamp ≤ et)
    | none => q2
  (orderByDescending (fun l => l.timestamp) q3).take limit

/-- `InMemoryStore.QueryMetrics`: metric-name index, else service index,
else full scan; time filters; descending timestamp; take `limit`. -/
def Store.queryMetrics (s : Store) (name serviceName : Option String)
    (startTime endTime : Option Nat) (limit : Nat) : List MetricEntry :=
  let idxName : Option (List MetricEntry) :=
    match name with
    | some n => if n == "" then none else dictLookup s.metricsByName n
    | none => none
  let idxService : Option (List MetricEntry) :=
    match serviceName with
    | some n => if n == "" then none else dictLookup s.metricsByService n
    | none => none
  let base : List MetricEntry :=
    match idxName with
    | some q => q
    | none =>
      match idxService with
      | some q => q
      | none => s.metrics
  let q1 := match startTime with
    | some st => base.filter (fun m => st ≤ m.timestamp)
    | none => base
  let q2 := match endTime with
    | some et => q1.filter (fun m => m.timestamp ≤ et)
    | none => q1
  (orderByDescending (fun m => m.timestamp) q2).take limit

/-- `InMemoryStore.GetStats` (log and metric counts). -/
def Store.getStats (s : Store) : Nat × Nat :=
  (s.logs.length, s.metrics.length)

/-- One public write operation against the store. -/
inductive StoreOp where
  | addLog (l : LogEntry)
  | addMetric (m : MetricEntry)

/-- Run a sequence of write operations, oldest first. -/
def Store.applyOps (s : Store) (ops : List StoreOp) : Store :=
  ops.foldl (fun s op =>
    match op with
    | .addLog l => (s.addLog l).1
    | .addMetric m => (s.addMetric m).1) s

/-! ## OTLP JSON parsing (`System.Text.Json` layer)

`Json` is the parsed document tree (`JsonElement`).  JSON numbers are
carried as integers: every number a modelled code path reads is consumed
through `GetUInt64`/`GetInt32`/`GetInt64`/`GetDouble`, and the only
doubles flowing through are copied verbatim (`DoubleVal`).  .NET accessor
exceptions (`InvalidOperationException` on a kind mismatch,
`FormatException` on a range failure) are `Except.error`. -/

inductive Json where
  | null
  | bool (b : Bool)
  | num (n : Int)
  | str (s : String)
  | arr (elems : List Json)
  | obj (fields : List (String × Json))

mutual

/-- The JSON text of an element (`GetRawText`, which backs
`JsonElement.ToString()` for non-string kinds).  Whitespace and string
escaping of the original document are not tracked; no modelled code path
depends on them. -/
def Json.render : Json → String
  | .null => "null"
  | .bool true => "true"
  | .bool false => "false"
  | .num n => toString n
  | .str s => "\"" ++ s ++ "\""
  | .arr xs => "[" ++ Json.renderArr xs ++ "]"
  | .obj fs => "\x7b" ++ Json.renderFields fs ++ "\x7d"

def Json.renderArr : List Json → String
  | [] => ""
  | [x] => Json.render x
  | x :: xs => Json.render x ++ "," ++ Json.renderArr xs

def Json.renderFields : List (String × Json) → String
  | [] => ""
  | [(k, v)] => "\"" ++ k ++ "\":" ++ Json.render v
  | (k, v) :: fs => "\"" ++ k ++ "\":" ++ Json.render v ++ "," ++ Json.renderFields fs

end

/-- `JsonElement.ToString()`: the plain value for strings, the empty
string for null, the JSON text otherwise. -/
def Json.toStringDotNet : Json → String
  | .null => ""
  | .str s => s
  | j => j.render

def Json.isNumber : Json → Bool
  | .num _ => true
  | _ => false

def Json.isString : Json → Bool
  | .str _ => true
  | _ => false

/-- `TryGetProperty`: only valid on objects (else
`InvalidOperationException`); yields the property when present. -/
def Json.tryGetProperty : Json → String → Except String (Option Json)
  | .obj fields, k => .ok ((fields.find? (fun p => p.1 == k)).map (·.2))
  | _, _ => .error "InvalidOperationException: not an object"

/-- The `GetPropertyOrDefault` extension method. -/
def Json.getPropertyOrDefault (j : Json) (k : String) (d : Json) :
    Except String Json := do
  match ← j.tryGetProperty k with
  | some v => pure v
  | none => pure d

/-- `GetString()`: the string value, `null` for JSON null, otherwise an
`InvalidOperationException`. -/
def Json.getStringOrNull : Json → Except String (Option String)
  | .str s => .ok (some s)
  | .null => .ok none
  | _ => .error "InvalidOperationException: not a string"

def Json.getUInt64 : Json → Except String Nat
  | .num n => if 0 ≤ n ∧ n < 2 ^ 64 then .ok n.toNat else .error "FormatException"
  | _ => .error "InvalidOperationException: not a number"

def Json.getInt64 : Json → Except String Int
  | .num n => if -(2 ^ 63) ≤ n ∧ n < 2 ^ 63 then .ok n else .error "FormatException"
  | _ => .error "InvalidOperationException: not a number"

def Json.getInt32 : Json → Except String Int
  | .num n => if -(2 ^ 31) ≤ n ∧ n < 2 ^ 31 then .ok n else .error "FormatException"
  | _ => .error "InvalidOperationException: not a number"

def Json.getDouble : Json → Except String DoubleVal
  | .num n => .ok n
  | _ => .error "InvalidOperationException: not a number"

def Json.getBoolean : Json → Except String Bool
  | .bool b => .ok b
  | _ => .error "InvalidOperationException: not a boolean"

def Json.enumerateArray : Json → Except String (List Json)
  | .arr xs => .ok xs
  | _ => .error "InvalidOperationException: not an array"

def Json.getArrayLength : Json → Except String Nat
  | .arr xs => .ok xs.length
  | _ => .error "InvalidOperationException: not an array"

/-- Digit-run accumulator shared by the `TryParse` models. -/
def parseDigits (acc : Nat) : List Char → Option Nat
  | [] => some acc
  | c :: rest =>
      if 48 ≤ c.toNat ∧ c.toNat ≤ 57 then
        parseDigits (acc * 10 + (c.toNat - 48)) rest
      else none

def parseNatDigits : List Char → Option Nat
  | [] => none
  | cs => parseDigits 0 cs

def parseIntDigits : List Char → Option Int
  | '-' :: rest => (parseNatDigits rest).map (fun n => -(n : Int))
  | '+' :: rest => (parseNatDigits rest).map (fun n => (n : Int))
  | cs => (parseNatDigits cs).map (fun n => (n : Int))

/-- `ulong.TryParse` on the plain digit strings OTLP JSON uses for
nanosecond timestamps. -/
def tryParseUInt64 (s : String) : Option Nat :=
  match parseNatDigits s.data with
  | some n => if n < 2 ^ 64 then some n else none
  | none => none

/-- `int.TryParse`. -/
def tryParseInt32 (s : String) : Option Int :=
  match parseIntDigits s.data with
  | some n => if -(2 ^ 31) ≤ n ∧ n < 2 ^ 31 then some n else none
  | none => none

/-- `long.TryParse`. -/
def tryParseInt64 (s : String) : Option Int :=
  match parseIntDigits s.data with
  | some n => if -(2 ^ 63) ≤ n ∧ n < 2 ^ 63 then some n else none
  | none => none

/-! ## `InMemoryStore`'s JSON helpers -/

/-- `InMemoryStore.GetAnyValueString` (non-recursive: falls back to
`val.ToString()`). -/
def getAnyValueString (val : Json) : Except String String := do
  match ← val.tryGetProperty "stringValue" with
  | some sv => pure ((← sv.getStringOrNull).getD "")
  | none =>
  match ← val.tryGetProperty "intValue" with
  | some iv =>
      if iv.isString then
        pure ((← iv.getStringOrNull).getD "")
      else do
        pure (toString (← iv.getInt64))
  | none =>
  match ← val.tryGetProperty "doubleValue" with
  | some dv => pure (toString (← dv.getDouble))
  | none =>
  match ← val.tryGetProperty "boolValue" with
  | some bv => pure (if ← bv.getBoolean then "True" else "False")
  | none => pure val.toStringDotNet

/-- One `kvlistValue` element of `GetBodyMessage`: `$"{key}={value}"`. -/
def bodyKvParts : List Json → Except String (List String)
  | [] => .ok []
  | kv :: rest => do
      let keyEl ← kv.getPropertyOrDefault "key" (.str "")
      let key := (← keyEl.getStringOrNull).getD ""
      let v ← kv.getPropertyOrDefault "value" (.obj [])
      let vs ← getAnyValueString v
      let tail ← bodyKvParts rest
      pure ((key ++ "=" ++ vs) :: tail)

def bodyArrParts : List Json → Except String (List String)
  | [] => .ok []
  | v :: rest => do
      let vs ← getAnyValueString v
      let tail ← bodyArrParts rest
      pure (vs :: tail)

/-- `InMemoryStore.GetBodyMessage`. -/
def getBodyMessage (body : Json) : Except String String := do
  if let .str s := body then
    return s
  match ← body.tryGetProperty "stringValue" with
  | some sv => return (← sv.getStringOrNull).getD ""
  | none =>
  match ← body.tryGetProperty "kvlistValue" with
  | some kvlist =>
      match ← kvlist.tryGetProperty "values" with
      | some values => return String.intercalate ", " (← bodyKvParts (← values.enumerateArray))
      | none => return String.intercalate ", " []
  | none =>
  match ← body.tryGetProperty "arrayValue" with
  | some arrayVal =>
      match ← arrayVal.tryGetProperty "values" with
      | some values => return String.intercalate " " (← bodyArrParts (← values.enumerateArray))
      | none => return String.intercalate " " []
  | none => return body.toStringDotNet

/-- Loop body of `InMemoryStore.GetAttributesAsObjects`: the base value is
the string rendering, overridden for `intValue` (string-typed long when
parsable, else the raw string), `doubleValue` and `boolValue`. -/
def attrsObjLoop : List Json → List (String × AttrValue) →
    Except String (List (String × AttrValue))
  | [], dict => .ok dict
  | attr :: rest, dict => do
      match ← attr.tryGetProperty "key" with
      | some keyEl => do
          let key := (← keyEl.getStringOrNull).getD ""
          match ← attr.tryGetProperty "value" with
          | some val => do
              let base ← getAnyValueString val
              let value : AttrValue ←
                match ← val.tryGetProperty "intValue" with
                | some iv =>
                    if iv.isString then do
                      let s := (← iv.getStringOrNull).getD ""
                      pure (match tryParseInt64 s with
                        | some l => AttrValue.int l
                        | none => AttrValue.str s)
                    else do
                      pure (AttrValue.int (← iv.getInt64))
                | none =>
                  match ← val.tryGetProperty "doubleValue" with
                  | some dv => do pure (AttrValue.double (← dv.getDouble))
                  | none =>
                    match ← val.tryGetProperty "boolValue" with
                    | some bv => do pure (AttrValue.bool (← bv.getBoolean))
                    | none => pure (AttrValue.str base)
              attrsObjLoop rest (dictSet dict key value)
          | none => attrsObjLoop rest dict
      | none => attrsObjLoop rest dict

def getAttributesAsObjects (attributes : Json) :
    Except String (List (String × AttrValue)) := do
  attrsObjLoop (← attributes.enumerateArray) []

/-- `InMemoryStore.MapSeverityNumber` (JSON adapter). -/
def mapSeverityNumber (severityNumber : Int) : LogLevel :=
  if severityNumber ≥ 21 then .Fatal
  else if severityNumber ≥ 17 then .Error
  else if severityNumber ≥ 13 then .Warn
  else if severityNumber ≥ 9 then .Info
  else if severityNumber ≥ 5 then .Debug
  else if severityNumber ≥ 1 then .Debug
  else .Info

/-- Loop of `InMemoryStore.GetAttributeValue`: first attribute whose
`key` matches; its value read through the
`stringValue`/`intValue`/`doubleValue`/`boolValue` default chain, then
`GetString()` (which throws when the present alternative is not a
string). -/
def getAttributeValueLoop (key : String) : List Json → Except String (Option String)
  | [] => .ok none
  | attr :: rest => do
      match ← attr.tryGetProperty "key" with
      | some keyEl => do
          let ks ← keyEl.getStringOrNull
          if ks = some key then
            match ← attr.tryGetProperty "value" with
            | some val => do
                let d3 ← val.getPropertyOrDefault "boolValue" (.str "")
                let d2 ← val.getPropertyOrDefault "doubleValue" d3
                let d1 ← val.getPropertyOrDefault "intValue" d2
                let d0 ← val.getPropertyOrDefault "stringValue" d1
                d0.getStringOrNull
            | none => getAttributeValueLoop key rest
          else getAttributeValueLoop key rest
      | none => getAttributeValueLoop key rest

def getAttributeValue (resource : Json) (key : String) :
    Except String (Option String) := do
  match ← resource.tryGetProperty "attributes" with
  | some attrs => getAttributeValueLoop key (← attrs.enumerateArray)
  | none => pure none

/-- Loop of `InMemoryStore.GetAttributesDict` (string-valued attribute
dictionaries for spans and span events). -/
def attrsDictLoop : List Json → List (String × String) →
    Except String (List (String × String))
  | [], dict => .ok dict
  | attr :: rest, dict => do
      match ← attr.tryGetProperty "key" with
      | some keyEl => do
          let key := (← keyEl.getStringOrNull).getD ""
          match ← attr.tryGetProperty "value" with
          | some val => do
              let value : Option String ←
                match ← val.tryGetProperty "stringValue" with
                | some sv => sv.getStringOrNull
                | none =>
                  match ← val.tryGetProperty "intValue" with
                  | some iv => do pure (some (toString (← iv.getInt64)))
                  | none =>
                    match ← val.tryGetProperty "doubleValue" with
                    | some dv => do pure (some (toString (← dv.getDouble)))
                    | none =>
                      match ← val.tryGetProperty "boolValue" with
                      | some bv => do
                          pure (some (if ← bv.getBoolean then "True" else "False"))
                      | none => pure none
              match value with
              | some v => attrsDictLoop rest (dictSet dict key v)
              | none => attrsDictLoop rest dict
          | none => attrsDictLoop rest dict
      | none => attrsDictLoop rest dict

def getAttributesDict (attributes : Json) : Except String (List (String × String)) := do
  attrsDictLoop (← attributes.enumerateArray) []

/-- `InMemoryStore.GetUInt64FromJsonElement`: tolerant of both the native
number form and the numeric string form of a nanosecond timestamp
(a failed string parse yields 0; only a negative/fractional *number*
throws, via `GetUInt64`). -/
def getUInt64FromJsonElement (element : Json) : Except String Nat :=
  if element.isNumber then
    element.getUInt64
  else
    match element with
    | .str s =>
        match tryParseUInt64 s with
        | some result => .ok result
        | none => .ok 0
    | _ => .ok 0

/-! ## `InMemoryStore.ParseLogEntry` / `ParseTraceSpan` / `ParseMetricEntry`

Each is a `try { ... } catch { return null }` body: the `...E` function is
the body with exceptions as `Except.error`, the `Option`-valued wrapper is
the catch. `now` is `DateTime.UtcNow` (milliseconds). -/

/-- The shared reading pattern for a nanosecond timestamp property in
`ParseLogEntry`: a numeric *string* is `ulong.TryParse`d (0 on failure),
a native number goes through `GetUInt64()`, anything else is 0. -/
def logTimestampNanos (el : Json) : Except String Nat :=
  if el.isString then
    match el with
    | .str s =>
        match tryParseUInt64 s with
        | some v => .ok v
        | none => .ok 0
    | _ => .ok 0
  else if el.isNumber then
    el.getUInt64
  else
    .ok 0

def parseLogEntryE (logRecord : Json) (serviceName : String)
    (serviceVersion deploymentEnv : Option String) (now : Nat) :
    Except String LogEntry := do
  let traceIdHex :=
    (← (← logRecord.getPropertyOrDefault "traceId" (.str "")).getStringOrNull).getD ""
  let spanIdHex :=
    (← (← logRecord.getPropertyOrDefault "spanId" (.str "")).getStringOrNull).getD ""
  let timeUnixNano ← logRecord.getPropertyOrDefault "timeUnixNano" (.str "0")
  let observedTimeUnixNano ← logRecord.getPropertyOrDefault "observedTimeUnixNano" (.str "0")
  let ts1 ← logTimestampNanos timeUnixNano
  let timestampNanos ← if ts1 = 0 then logTimestampNanos observedTimeUnixNano else pure ts1
  let timestamp := if timestampNanos > 0 then timestampNanos / 1000000 else now
  let sevProp ← logRecord.tryGetProperty "severityNumber"
  let severityNumber : Int ←
    match sevProp with
    | some sevNum =>
        if sevNum.isNumber then
          sevNum.getInt32
        else if sevNum.isString then do
          match sevNum with
          | .str s =>
              match tryParseInt32 s with
              | some sn => pure sn
              | none => pure 0
          | _ => pure 0
        else pure 0
    | none => pure 0
  let severityText :=
    (← (← logRecord.getPropertyOrDefault "severityText" (.str "")).getStringOrNull).getD ""
  let body ← logRecord.getPropertyOrDefault "body" (.obj [])
  let message ← getBodyMessage body
  let attributes ← logRecord.getPropertyOrDefault "attributes" (.arr [])
  let attrDict ← getAttributesAsObjects attributes
  let attrDict :=
    if severityText ≠ "" then dictSet attrDict "severity_text" (.str severityText)
    else attrDict
  pure
    { traceId := traceIdHex
      spanId := spanIdHex
      timestamp := timestamp
      level := mapSeverityNumber severityNumber
      serviceName := serviceName
      message := message
      attributes := attrDict
      resource := some
        { serviceName := serviceName
          serviceVersion := serviceVersion
          deploymentEnvironment := deploymentEnv } }

def parseLogEntry (logRecord : Json) (serviceName : String)
    (serviceVersion deploymentEnv : Option String) (now : Nat) : Option LogEntry :=
  (parseLogEntryE logRecord serviceName serviceVersion deploymentEnv now).toOption

def parseSpanEvents (startTime : Nat) : List Json → Except String (List SpanEvent)
  | [] => .ok []
  | e :: rest => do
      let tsNano : Nat ←
        match ← e.tryGetProperty "timeUnixNano" with
        | some ts => getUInt64FromJsonElement ts
        | none => pure 0
      let name := (← (← e.getPropertyOrDefault "name" (.str "")).getStringOrNull).getD ""
      let attrs ← getAttributesDict (← e.getPropertyOrDefault "attributes" (.arr []))
      let tail ← parseSpanEvents startTime rest
      pure ({ name := name
              timestamp := if tsNano > 0 then tsNano / 1000000 else startTime
              attributes := attrs } :: tail)

def parseSpanLinks : List Json → Except String (List SpanLink)
  | [] => .ok []
  | l :: rest => do
      let tid := (← (← l.getPropertyOrDefault "traceId" (.str "")).getStringOrNull).getD ""
      let sid := (← (← l.getPropertyOrDefault "spanId" (.str "")).getStringOrNull).getD ""
      let tail ← parseSpanLinks rest
      pure ({ traceId := tid, spanId := sid } :: tail)

/-- `InMemoryStore.ParseTraceSpan` body.  The trace/span/parent ids are
stored exactly as the hex strings arrive ("Keep hex format" — no case
normalization). -/
def parseTraceSpanE (span : Json) (serviceName : String) (now : Nat) :
    Except String TraceSpan := do
  let traceIdHex :=
    (← (← span.getPropertyOrDefault "traceId" (.str "")).getStringOrNull).getD ""
  let spanIdHex :=
    (← (← span.getPropertyOrDefault "spanId" (.str "")).getStringOrNull).getD ""
  let parentSpanIdHex :=
    (← (← span.getPropertyOrDefault "parentSpanId" (.str "")).getStringOrNull).getD ""
  let name :=
    (← (← span.getPropertyOrDefault "name" (.str "unknown")).getStringOrNull).getD "unknown"
  let kind ← (← span.getPropertyOrDefault "kind" (.num 0)).getInt32
  let startTimeUnixNano ←
    getUInt64FromJsonElement (← span.getPropertyOrDefault "startTimeUnixNano" (.num 0))
  let endTimeUnixNano ←
    getUInt64FromJsonElement (← span.getPropertyOrDefault "endTimeUnixNano" (.num 0))
  let startTime := if startTimeUnixNano > 0 then startTimeUnixNano / 1000000 else now
  let endTime := if endTimeUnixNano > 0 then endTimeUnixNano / 1000000 else now
  let durationMs : Int := (endTime : Int) - (startTime : Int)
  let attributes ← span.getPropertyOrDefault "attributes" (.arr [])
  let status ← span.getPropertyOrDefault "status" (.obj [("code", .num 0)])
  let statusCode ← (← status.getPropertyOrDefault "code" (.num 0)).getInt32
  let statusMessage ← (← status.getPropertyOrDefault "message" (.str "")).getStringOrNull
  let attrsDict ← getAttributesDict attributes
  let events ←
    parseSpanEvents startTime (← (← span.getPropertyOrDefault "events" (.arr [])).enumerateArray)
  let links ←
    parseSpanLinks (← (← span.getPropertyOrDefault "links" (.arr [])).enumerateArray)
  pure
    { traceId := traceIdHex
      spanId := spanIdHex
      parentSpanId := if parentSpanIdHex = "" then none else some parentSpanIdHex
      name := name
      kind := kind
      startTime := startTime
      endTime := endTime
      durationMs := durationMs
      serviceName := serviceName
      statusCode := statusCode
      statusMessage := statusMessage
      attributes := attrsDict
      events := events
      links := links }

def parseTraceSpan (span : Json) (serviceName : String) (now : Nat) : Option TraceSpan :=
  (parseTraceSpanE span serviceName now).toOption

/-- Histogram fallback of `GetDataPointValue`: sum of the bucket values.
(The only place a modelled path computes with doubles; carried by the
integer stand-in, unreached by any claim.) -/
def sumDoubles : List Json → Except String DoubleVal
  | [] => .ok 0
  | v :: rest => do
      let d ← v.getDouble
      let tail ← sumDoubles rest
      pure (d + tail)

/-- `InMemoryStore.GetDataPointValue`. -/
def getDataPointValue (dp : Json) : Except String DoubleVal := do
  match ← dp.tryGetProperty "asNumber" with
  | some asNumber => asNumber.getDouble
  | none =>
  match ← dp.tryGetProperty "value" with
  | some value => value.getDouble
  | none =>
  match ← dp.tryGetProperty "explicitBucket" with
  | some bucket =>
      match ← bucket.tryGetProperty "values" with
      | some values =>
          if (← values.getArrayLength) > 0 then
            sumDoubles (← values.enumerateArray)
          else pure 0
      | none => pure 0
  | none => pure 0

/-- `InMemoryStore.ParseMetricEntry` body.  Note: unlike `ParseTraceSpan`
and `ParseLogEntry`, the two data-point timestamps are read with a direct
`GetUInt64()` — a numeric *string* `timeUnixNano`/`startTimeUnixNano`
throws here and the whole metric is dropped by the catch. -/
def parseMetricEntryE (metric : Json) (serviceName : String) (now : Nat) :
    Except String MetricEntry := do
  let name :=
    (← (← metric.getPropertyOrDefault "name" (.str "unknown")).getStringOrNull).getD "unknown"
  let description :=
    (← (← metric.getPropertyOrDefault "description" (.str "")).getStringOrNull).getD ""
  let unit :=
    (← (← metric.getPropertyOrDefault "unit" (.str "")).getStringOrNull).getD ""
  let dataPoints ← metric.getPropertyOrDefault "dataPoints" (.arr [])
  match ← dataPoints.enumerateArray with
  | dp :: _ => do
      let value ← getDataPointValue dp
      let startTimeUnixMs ← (← dp.getPropertyOrDefault "startTimeUnixNano" (.num 0)).getUInt64
      let timeUnixMs ← (← dp.getPropertyOrDefault "timeUnixNano" (.num 0)).getUInt64
      pure
        { name := name
          description := some description
          unit := some unit
          value := value
          timestamp :=
            if timeUnixMs > 0 then timeUnixMs / 1000000
            else if startTimeUnixMs > 0 then startTimeUnixMs / 1000000
            else now
          serviceName := serviceName }
  | [] =>
      pure
        { name := name
          description := some description
          unit := some unit
          value := 0
          timestamp := now
          serviceName := serviceName }

def parseMetricEntry (metric : Json) (serviceName : String) (now : Nat) :
    Option MetricEntry :=
  (parseMetricEntryE metric serviceName now).toOption

/-! ## `InMemoryStore.AddLogsJsonAsync` and the `/v1/logs` endpoint

An exception thrown mid-iteration leaves the entries already added in the
store (the store is mutated in place), so the pipeline returns the store
reached so far together with the outcome. -/

def addLogRecords (svc : String) (sv dep : Option String) (now : Nat)
    (s : Store) (records : List Json) : Store :=
  records.foldl (fun s r =>
    match parseLogEntry r svc sv dep now with
    | some entry => (s.addLog entry).1
    | none => s) s

def addLogsScopeLogs (svc : String) (sv dep : Option String) (now : Nat) :
    Store → List Json → Store × Except String Unit
  | s, [] => (s, .ok ())
  | s, scopeLog :: rest =>
      match (do
          (← scopeLog.getPropertyOrDefault "logRecords" (.arr [])).enumerateArray :
          Except String (List Json)) with
      | .error e => (s, .error e)
      | .ok records =>
          addLogsScopeLogs svc sv dep now (addLogRecords svc sv dep now s records) rest

def addLogsResourceLogs (now : Nat) :
    Store → List Json → Store × Except String Unit
  | s, [] => (s, .ok ())
  | s, resourceLog :: rest =>
      match (do
          let resource ← resourceLog.getPropertyOrDefault "resource"
            (.obj [("attributes", .arr [])])
          let scopeLogs ← resourceLog.getPropertyOrDefault "scopeLogs"
            (.arr [.obj [("logRecords", .arr [])]])
          let serviceName := (← getAttributeValue resource "service.name").getD "unknown"
          let serviceVersion ← getAttributeValue resource "service.version"
          let deploymentEnv ← getAttributeValue resource "deployment.environment"
          let scopes ← scopeLogs.enumerateArray
          pure (serviceName, serviceVersion, deploymentEnv, scopes) :
          Except String (String × Option String × Option String × List Json)) with
      | .error e => (s, .error e)
      | .ok (svc, sv, dep, scopes) =>
          match addLogsScopeLogs svc sv dep now s scopes with
          | (s', .ok ()) => addLogsResourceLogs now s' rest
          | (s', .error e) => (s', .error e)

/-- `InMemoryStore.AddLogsJsonAsync` after `JsonDocument.Parse`. -/
def addLogsJson (root : Json) (s : Store) (now : Nat) :
    Store × Except String Unit :=
  match (do
      let rl ← root.tryGetProperty "resourceLogs"
      (rl.getD root).enumerateArray : Except String (List Json)) with
  | .error e => (s, .error e)
  | .ok resources => addLogsResourceLogs now s resources

/-- The `partialSuccess` body an OTLP HTTP endpoint responds with
(`null` on full success). -/
inductive OtlpHttpResult where
  | fullSuccess
  | rejectedItems (rejected : Nat) (message : String)
deriving DecidableEq, Repr

/-- The `POST /v1/logs` handler: run `AddLogsJsonAsync`; on success
respond `partialSuccess: null`, on an exception respond
`rejectedLogRecords = 1` plus the exception message. -/
def postV1Logs (root : Json) (s : Store) (now : Nat) : Store × OtlpHttpResult :=
  match addLogsJson root s now with
  | (s', .ok ()) => (s', .fullSuccess)
  | (s', .error e) => (s', .rejectedItems 1 e)

/-! ## gRPC adapters (`OtlpHelpers` and the `Export` services)

Proto messages are records; a proto `AnyValue` is `PAnyValue`, with
`noneValue` for an unset oneof (and for a null `KeyValue.Value`).
Byte strings are lists of byte values `0..255`. -/

/-- One lowercase hex digit (`Convert.ToHexString` produces the uppercase
digit; composed with `ToLowerInvariant` the net effect is this). -/
def hexDigitLower (n : Nat) : Char :=
  if n < 10 then Char.ofNat (48 + n) else Char.ofNat (87 + n)

/-- `OtlpHelpers.BytesToHex`: empty (or absent) byte strings give `""`,
otherwise the lowercase hex rendering, two digits per byte. -/
def bytesToHex (bytes : List Nat) : String :=
  String.mk (bytes.flatMap (fun b => [hexDigitLower (b % 256 / 16), hexDigitLower (b % 16)]))

/-- ASCII lowercasing of a string, character by character: the
"lowercase-hex normalization" a canonical id is a fixed point of. -/
def toLowerAscii (s : String) : String :=
  String.mk (s.data.map Char.toLower)

/-- `Convert.ToBase64String` (for `bytesValue` attributes). -/
def base64Chars : List Char :=
  "ABCDEFGHIJKLMNOPQRSTUVWXYZabcdefghijklmnopqrstuvwxyz0123456789+/".data

def base64Digit (n : Nat) : Char := base64Chars.getD n '='

def base64Go : List Nat → List Char
  | [] => []
  | [a] => [base64Digit (a % 256 / 4), base64Digit (a % 4 * 16), '=', '=']
  | [a, b] =>
      [base64Digit (a % 256 / 4), base64Digit (a % 4 * 16 + b % 256 / 16),
       base64Digit (b % 16 * 4), '=']
  | a :: b :: c :: rest =>
      base64Digit (a % 256 / 4) :: base64Digit (a % 4 * 16 + b % 256 / 16) ::
      base64Digit (b % 16 * 4 + c % 256 / 64) :: base64Digit (c % 64) ::
      base64Go rest

def base64String (bytes : List Nat) : String := String.mk (base64Go bytes)

/-- Proto `AnyValue`. -/
inductive PAnyValue where
  | stringValue (s : String)
  | intValue (n : Int)
  | doubleValue (d : DoubleVal)
  | boolValue (b : Bool)
  | bytesValue (bs : List Nat)
  | arrayValue (vs : List PAnyValue)
  | kvlistValue (kvs : List (String × PAnyValue))
  | noneValue

mutual

/-- `OtlpHelpers.GetAnyValueAsString` (`null` for a null value or an unset
oneof; recursive over arrays and kv-lists, `string.Join` renders a null
member as the empty string). -/
def getAnyValueAsStringV : PAnyValue → Option String
  | .stringValue s => some s
  | .intValue n => some (toString n)
  | .doubleValue d => some (toString d)
  | .boolValue b => some (if b then "True" else "False")
  | .bytesValue bs => some (base64String bs)
  | .arrayValue vs => some (String.intercalate ", " (anyValuesAsStrings vs))
  | .kvlistValue kvs => some (String.intercalate ", " (kvlistAsStrings kvs))
  | .noneValue => none

def anyValuesAsStrings : List PAnyValue → List String
  | [] => []
  | v :: rest => (getAnyValueAsStringV v).getD "" :: anyValuesAsStrings rest

def kvlistAsStrings : List (String × PAnyValue) → List String
  | [] => []
  | (k, v) :: rest => (k ++ "=" ++ (getAnyValueAsStringV v).getD "") :: kvlistAsStrings rest

end

mutual

/-- `OtlpHelpers.GetAnyValueAsObject` (`string.Empty` for null/unset;
base64 text for bytes; nested lists and dictionaries for containers).
A nested kv-list with duplicate keys would make `ToDictionary` throw in
the source; modelled inputs carry unique keys (the top-level attribute
dictionaries do model the duplicate-key exception, below). -/
def getAnyValueAsObject : PAnyValue → AttrValue
  | .stringValue s => .str s
  | .intValue n => .int n
  | .doubleValue d => .double d
  | .boolValue b => .bool b
  | .bytesValue bs => .str (base64String bs)
  | .arrayValue vs => .list (anyValuesAsObjects vs)
  | .kvlistValue kvs => .dict (kvlistAsObjects kvs)
  | .noneValue => .str ""

def anyValuesAsObjects : List PAnyValue → List AttrValue
  | [] => []
  | v :: rest => getAnyValueAsObject v :: anyValuesAsObjects rest

def kvlistAsObjects : List (String × PAnyValue) → List (String × AttrValue)
  | [] => []
  | (k, v) :: rest => (k, getAnyValueAsObject v) :: kvlistAsObjects rest

end

/-- `OtlpHelpers.ToAttributesDict`: `ToDictionary` adds the pairs left to
right and throws `ArgumentException` on a duplicate key (making the
enclosing record conversion fail, i.e. the item malformed). -/
def toAttributesDictLoop (acc : List (String × AttrValue)) :
    List (String × PAnyValue) → Except String (List (String × AttrValue))
  | [] => .ok acc
  | (k, v) :: rest =>
      if acc.any (fun p => p.1 == k) then
        .error "ArgumentException: An item with the same key has already been added"
      else
        toAttributesDictLoop (acc ++ [(k, getAnyValueAsObject v)]) rest

def toAttributesDict (attributes : List (String × PAnyValue)) :
    Except String (List (String × AttrValue)) :=
  toAttributesDictLoop [] attributes

/-- `OtlpHelpers.ToStringAttributesDict` (string-valued variant,
`GetAnyValueAsString ?? ""`). -/
def toStringAttributesDictLoop (acc : List (String × String)) :
    List (String × PAnyValue) → Except String (List (String × String))
  | [] => .ok acc
  | (k, v) :: rest =>
      if acc.any (fun p => p.1 == k) then
        .error "ArgumentException: An item with the same key has already been added"
      else
        toStringAttributesDictLoop (acc ++ [(k, (getAnyValueAsStringV v).getD "")]) rest

def toStringAttributesDict (attributes : List (String × PAnyValue)) :
    Except String (List (String × String)) :=
  toStringAttributesDictLoop [] attributes

/-- `OtlpHelpers.NanosToDateTime` (0 means "now"). -/
def nanosToDateTime (now nanos : Nat) : Nat :=
  if nanos = 0 then now else nanos / 1000000

/-- `OtlpHelpers.MapSeverity` after the `(int)severity` cast (identical
switch to the JSON adapter's `MapSeverityNumber`). -/
def mapSeverity (severityInt : Int) : LogLevel :=
  if severityInt ≥ 21 then .Fatal
  else if severityInt ≥ 17 then .Error
  else if severityInt ≥ 13 then .Warn
  else if severityInt ≥ 9 then .Info
  else if severityInt ≥ 5 then .Debug
  else if severityInt ≥ 1 then .Debug
  else .Info

/-- `OtlpHelpers.GetLogMessage`. -/
def getLogMessage : Option PAnyValue → String
  | none => ""
  | some body =>
      match body with
      | .stringValue s => s
      | .arrayValue vs => String.intercalate " " (anyValuesAsStrings vs)
      | .kvlistValue kvs => String.intercalate ", " (kvlistAsStrings kvs)
      | other => (getAnyValueAsStringV other).getD ""

/-- Proto `LogRecord` (the fields `ConvertLogRecord` reads). -/
structure PLogRecord where
  timeUnixNano : Nat := 0
  observedTimeUnixNano : Nat := 0
  severityNumber : Int := 0
  severityText : String := ""
  body : Option PAnyValue := none
  attributes : List (String × PAnyValue) := []
  traceId : List Nat := []
  spanId : List Nat := []

/-- `OtlpLogsGrpcService.ConvertLogRecord`: can throw only through
`ToAttributesDict` (duplicate attribute keys). -/
def convertLogRecordE (logRecord : PLogRecord) (serviceName : String)
    (serviceVersion deploymentEnv : Option String)
    (scopeName scopeVersion : String) (now : Nat) : Except String LogEntry := do
  let timestamp :=
    if logRecord.timeUnixNano > 0 then nanosToDateTime now logRecord.timeUnixNano
    else if logRecord.observedTimeUnixNano > 0 then
      nanosToDateTime now logRecord.observedTimeUnixNano
    else now
  let attributes ← toAttributesDict logRecord.attributes
  let attributes :=
    if scopeName ≠ "" then dictSet attributes "otel.scope.name" (.str scopeName)
    else attributes
  let attributes :=
    if scopeVersion ≠ "" then dictSet attributes "otel.scope.version" (.str scopeVersion)
    else attributes
  let attributes :=
    if logRecord.severityText ≠ "" then
      dictSet attributes "severity_text" (.str logRecord.severityText)
    else attributes
  pure
    { traceId := bytesToHex logRecord.traceId
      spanId := bytesToHex logRecord.spanId
      timestamp := timestamp
      level := mapSeverity logRecord.severityNumber
      serviceName := serviceName
      message := getLogMessage logRecord.body
      attributes := attributes
      resource := some
        { serviceName := serviceName
          serviceVersion := serviceVersion
          deploymentEnvironment := deploymentEnv } }

/-- The per-record loop of `OtlpLogsGrpcService.Export` (one
resource/scope group, records in order): a conversion failure is caught,
counted as rejected, and the loop continues with the next record; a
success is stored and counted as accepted. -/
def exportLogsLoop (svc : String) (sv dep : Option String)
    (scopeName scopeVersion : String) (now : Nat) :
    Store → Nat → Nat → List PLogRecord → Store × Nat × Nat
  | s, acc, rej, [] => (s, acc, rej)
  | s, acc, rej, r :: rest =>
      match convertLogRecordE r svc sv dep scopeName scopeVersion now with
      | .ok entry =>
          exportLogsLoop svc sv dep scopeName scopeVersion now
            (s.addLog entry).1 (acc + 1) rej rest
      | .error _ =>
          exportLogsLoop svc sv dep scopeName scopeVersion now s acc (rej + 1) rest

/-- The `PartialSuccess` of the gRPC `Export` response: `null` when
nothing was rejected, else the rejected count and the error message the
source formats. -/
def exportLogsResponse (rejectedLogs : Nat) : Option (Nat × String) :=
  if rejectedLogs > 0 then
    some (rejectedLogs,
      toString rejectedLogs ++ " log records rejected due to processing errors")
  else none

/-- `OtlpLogsGrpcService.Export` over one resource/scope group. -/
def exportLogs (svc : String) (sv dep : Option String)
    (scopeName scopeVersion : String) (now : Nat) (s : Store)
    (records : List PLogRecord) : Store × Option (Nat × String) :=
  let (s', _, rej) := exportLogsLoop svc sv dep scopeName scopeVersion now s 0 0 records
  (s', exportLogsResponse rej)

/-! ## `OtlpMetricsGrpcService`: Summary expansion -/

/-- One proto `ValueAtQuantile`.  The quantile is carried by its
`ToString("F2")` rendering, the only use the source makes of it. -/
structure SummaryQuantile where
  quantileF2 : String
  value : DoubleVal
deriving DecidableEq, Repr

/-- Proto `SummaryDataPoint` (the fields `ConvertSummaryDataPoints`
reads). -/
structure SummaryDataPoint where
  timeUnixNano : Nat := 0
  count : Nat := 0
  sum : DoubleVal := 0
  quantileValues : List SummaryQuantile := []
  attributes : List (String × PAnyValue) := []

/-- `OtlpMetricsGrpcService.ConvertSummaryDataPoints` for one data point:
the shared dictionary gets `aggregate = "count"` and a snapshot copy is
yielded with the count; then `aggregate = "sum"` and a copy with the sum;
then one copy per quantile with `aggregate = "quantile"` and a separate
`quantile` attribute holding the F2 rendering. -/
def convertSummaryDataPoint (now : Nat) (dp : SummaryDataPoint) :
    Except String (List (DoubleVal × Nat × List (String × String))) := do
  let timestamp := if dp.timeUnixNano > 0 then nanosToDateTime now dp.timeUnixNano else now
  let attributes ← toStringAttributesDict dp.attributes
  let aCount := dictSet attributes "aggregate" "count"
  let aSum := dictSet aCount "aggregate" "sum"
  pure (((dp.count : Int), timestamp, aCount) ::
    (dp.sum, timestamp, aSum) ::
    dp.quantileValues.map (fun q =>
      (q.value, timestamp,
        dictSet (dictSet aSum "aggregate" "quantile") "quantile" q.quantileF2)))

def convertSummaryDataPoints (now : Nat) :
    List SummaryDataPoint → Except String (List (DoubleVal × Nat × List (String × String)))
  | [] => .ok []
  | dp :: rest => do
      pure ((← convertSummaryDataPoint now dp) ++ (← convertSummaryDataPoints now rest))

/-- A proto `Metric` whose `DataCase` is `Summary`. -/
structure PSummaryMetric where
  name : String
  description : String := ""
  unit : String := ""
  dataPoints : List SummaryDataPoint := []

/-- `ConvertMetric` on a Summary metric (`GetMetricType(Summary) = Gauge`):
each yielded tuple gets the scope attributes and becomes one
`MetricEntry`. -/
def convertSummaryMetric (m : PSummaryMetric)
    (serviceName scopeName scopeVersion : String) (now : Nat) :
    Except String (List MetricEntry) := do
  let dpts ← convertSummaryDataPoints now m.dataPoints
  pure (dpts.map (fun t =>
    let attributes :=
      if scopeName ≠ "" then dictSet t.2.2 "otel.scope.name" scopeName else t.2.2
    let attributes :=
      if scopeVersion ≠ "" then dictSet attributes "otel.scope.version" scopeVersion
      else attributes
    { name := m.name
      description := some m.description
      unit := some m.unit
      value := t.1
      type := .Gauge
      timestamp := t.2.1
      serviceName := serviceName
      attributes := attributes }))

/-! ## Concrete scenario inputs for the end-to-end properties -/

/-- A gRPC log record with severity number 17 (ERROR) for the `"checkout"`
end-to-end scenario. -/
def c7LogRecord : PLogRecord :=
  { severityNumber := 17, body := some (.stringValue "payment failed") }

/-- The `"checkout"` end-to-end run: one gRPC `Export` of `c7LogRecord`
into a fresh store. -/
def c7Export : Store × Option (Nat × String) :=
  exportLogs "checkout" none none "" "" 0 Store.init [c7LogRecord]

/-- An OTLP JSON logs envelope whose only log record carries the
uppercase trace id `"AB"`. -/
def c3Json : Json :=
  .obj [("resourceLogs", .arr [.obj [("scopeLogs", .arr [.obj [("logRecords",
    .arr [.obj [("traceId", .str "AB"),
                ("body", .obj [("stringValue", .str "m")])]])]])]])]

/-- An OTLP JSON metric whose single data point carries its nanosecond
timestamp as a native JSON number. -/
def c6MetricNumTs : Json :=
  .obj [("name", .str "m"), ("dataPoints", .arr [.obj [("asNumber", .num 5),
    ("timeUnixNano", .num 1700000005123456789)]])]

/-- The same metric with the timestamp as a numeric JSON string (the form
OTLP JSON mandates for 64-bit values). -/
def c6MetricStrTs : Json :=
  .obj [("name", .str "m"), ("dataPoints", .arr [.obj [("asNumber", .num 5),
    ("timeUnixNano", .str "1700000005123456789")]])]

/-- A well-formed OTLP JSON log record. -/
def c4ValidRecord : Json :=
  .obj [("timeUnixNano", .str "1000000000"), ("severityNumber", .num 9),
        ("body", .obj [("stringValue", .str "hello")])]

/-- A malformed OTLP JSON log record: `traceId` is a number, so
`GetString()` throws inside `ParseLogEntry` and the record is dropped. -/
def c4MalformedRecord : Json := .obj [("traceId", .num 5)]

/-- An OTLP JSON logs envelope over a single resource/scope holding the
given log records, with `service.name` set in the resource. -/
def mkLogsEnvelope (svcName : String) (records : List Json) : Json :=
  .obj [("resourceLogs", .arr [.obj [
    ("resource", .obj [("attributes", .arr [.obj [
      ("key", .str "service.name"),
      ("value", .obj [("stringValue", .str svcName)])]])]),
    ("scopeLogs", .arr [.obj [("logRecords", .arr records)]])]])]

/-- The C4 batch: one valid and one malformed record in one scope. -/
def c4Batch : Json := mkLogsEnvelope "svc" [c4ValidRecord, c4MalformedRecord]

/-- A well-formed gRPC log record. -/
def c4GrpcValid : PLogRecord :=
  { severityNumber := 9, body := some (.stringValue "hello") }

/-- A malformed gRPC log record: duplicate attribute keys make
`ToDictionary` throw inside `ConvertLogRecord`. -/
def c4GrpcBad : PLogRecord :=
  { attributes := [("k", .stringValue "a"), ("k", .stringValue "b")] }

/-- The ids the store assigns to a run of entries appended in order,
starting after `start` entries have been assigned. -/
def assignIds (start : Nat) : List LogEntry → List LogEntry
  | [] => []
  | e :: rest => { e with id := start + 1 } :: assignIds (start + 1) rest

/-- A concrete Summary data point: count 3, sum 7, one quantile (0.50)
with value 4, no attributes. -/
def c8Dp : SummaryDataPoint :=
  { timeUnixNano := 2000000, count := 3, sum := 7,
    quantileValues := [{ quantileF2 := "0.50", value := 4 }] }

/-! ## A concrete ingestion run exercising capacity eviction

`c2Log` is one fixed log record (trace id `"t"`, service `"svc"`); `c2Store n`
is the store after `n` consecutive `AddLog(c2Log)` calls.  The store assigns
ids `1, 2, ...`, so the entry inserted `i`-th is `c2Entry i`. -/

def c2Log : LogEntry :=
  { traceId := "t", spanId := "", timestamp := 0, level := .Info,
    serviceName := "svc", message := "m" }

def c2Entry (i : Nat) : LogEntry := { c2Log with id := i }

def c2Store (n : Nat) : Store :=
  Store.applyOps Store.init (List.replicate n (.addLog c2Log))

/-! ## A concrete store holding two metric names (for the query-by-name
property and its witness) -/

def c9MetricA1 : MetricEntry :=
  { name := "a", value := 1, timestamp := 10, serviceName := "svc" }

def c9MetricB : MetricEntry :=
  { name := "b", value := 2, timestamp := 20, serviceName := "svc" }

def c9MetricA2 : MetricEntry :=
  { name := "a", value := 3, timestamp := 30, serviceName := "svc" }

def c9Ops : List StoreOp :=
  [.addMetric c9MetricA1, .addMetric c9MetricB, .addMetric c9MetricA2]

def c9Queue : List MetricEntry :=
  [{ c9MetricA1 with id := 1 }, { c9MetricA2 with id := 3 }]

/-! ## `WebSocketStreamService`

Per-connection state and the broadcast path.  A connection's outgoing
queue is the bounded channel created in `HandleConnectionAsync`
(`Channel.CreateBounded(1000)` with `FullMode = DropOldest`); its head is
the oldest queued message and the writer task drains it in order.
`TryWrite` on such a channel never blocks and never fails on a full
channel: it evicts the oldest queued element to make room. -/

def wsQueueCapacity : Nat := 1000

/-- The envelope `BroadcastAsync` builds around a payload
(`WebSocketMessage<T>`). -/
structure WsMessage (α : Type) where
  type : String
  channel : String
  payload : α
  timestamp : String
deriving DecidableEq, Repr

/-- `ConnectionState`: the subscription set, the socket state
(`Socket.State == WebSocketState.Open`), and the bounded outgoing queue. -/
structure WsConnection (α : Type) where
  subscriptions : List String
  isOpen : Bool
  queue : List (WsMessage α)
deriving DecidableEq, Repr

/-- `writer.TryWrite` on the `DropOldest` bounded channel: append to the
queue, first evicting oldest elements if the channel is at capacity. -/
def enqueueDropOldest (q : List (WsMessage α)) (m : WsMessage α) :
    List (WsMessage α) :=
  if q.length < wsQueueCapacity then q ++ [m]
  else q.drop (q.length + 1 - wsQueueCapacity) ++ [m]

/-- The `"data"` envelope `BroadcastAsync` builds around a payload. -/
def wsEnvelope (channel : String) (payload : α) (timestamp : String) : WsMessage α :=
  { type := "data", channel := channel, payload := payload, timestamp := timestamp }

/-- `BroadcastAsync(channel, data)`: wrap the payload in a `"data"`
envelope and `TryWrite` it to every connection currently subscribed to
the channel whose socket is open; other connections are untouched. -/
def broadcast (conns : List (WsConnection α)) (channel : String) (payload : α)
    (timestamp : String) : List (WsConnection α) :=
  let message : WsMessage α := wsEnvelope channel payload timestamp
  conns.map (fun c =>
    if c.subscriptions.contains channel && c.isOpen then
      { c with queue := enqueueDropOldest c.queue message }
    else c)

/-! ## Lemmas -/

theorem mem_insertByDesc {key : α → Nat} {x a : α} {l : List α} :
    a ∈ insertByDesc key x l ↔ a = x ∨ a ∈ l := by
  induction l with
  | nil => simp [insertByDesc]
  | cons y ys ih =>
      simp only [insertByDesc]
      by_cases h : key y ≤ key x
      · simp [h]
      · simp [h, ih]
        tauto

theorem mem_orderByDescending {key : α → Nat} {a : α} {l : List α} :
    a ∈ orderByDescending key l ↔ a ∈ l := by
  induction l with
  | nil => simp [orderByDescending]
  | cons y ys ih =>
      simp only [orderByDescending, List.foldr] at *
      rw [mem_insertByDesc, ih]
      simp

theorem length_insertByDesc (key : α → Nat) (x : α) (l : List α) :
    (insertByDesc key x l).length = l.length + 1 := by
  induction l with
  | nil => simp [insertByDesc]
  | cons y ys ih =>
      simp only [insertByDesc]
      by_cases h : key y ≤ key x <;> simp [h, ih]

theorem length_orderByDescending (key : α → Nat) (l : List α) :
    (orderByDescending key l).length = l.length := by
  induction l with
  | nil => rfl
  | cons y ys ih =>
      simp only [orderByDescending, List.foldr] at *
      rw [length_insertByDesc, ih]
      simp

theorem sorted_insertByDesc {key : α → Nat} {x : α} {l : List α}
    (h : l.Pairwise (fun a b => key b ≤ key a)) :
    (insertByDesc key x l).Pairwise (fun a b => key b ≤ key a) := by
  induction l with
  | nil => simp [insertByDesc]
  | cons y ys ih =>
      simp only [insertByDesc]
      rcases List.pairwise_cons.mp h with ⟨hy, hys⟩
      by_cases hk : key y ≤ key x
      · rw [if_pos hk]
        refine List.pairwise_cons.mpr ⟨?_, h⟩
        intro b hb
        rcases hb with _ | hb
        · exact hk
        · exact le_trans (hy _ (by assumption)) hk
      · rw [if_neg hk]
        refine List.pairwise_cons.mpr ⟨?_, ih hys⟩
        intro b hb
        rcases mem_insertByDesc.mp hb with rfl | hb
        · exact le_of_not_le hk
        · exact hy _ hb

theorem sorted_orderByDescending (key : α → Nat) (l : List α) :
    (orderByDescending key l).Pairwise (fun a b => key b ≤ key a) := by
  induction l with
  | nil => simp [orderByDescending]
  | cons y ys ih => exact sorted_insertByDesc ih

theorem trimQueue_length_le (max : Nat) (l : List α) :
    (trimQueue max l).length ≤ max := by
  induction l with
  | nil => simp [trimQueue]
  | cons x xs ih =>
      simp only [trimQueue]
      by_cases h : xs.length + 1 > max
      · simpa [h] using ih
      · simp only [h, if_false]
        simpa using Nat.le_of_not_lt h

theorem trimQueue_eq_of_le {max : Nat} {l : List α} (h : l.length ≤ max) :
    trimQueue max l = l := by
  cases l with
  | nil => rfl
  | cons x xs =>
      simp only [trimQueue]
      rw [if_neg]
      simpa using h

theorem trimQueue_eq_tail {max : Nat} {l : List α} (h : l.length = max + 1) :
    trimQueue max l = l.tail := by
  cases l with
  | nil => simp at h
  | cons x xs =>
      simp only [List.length_cons] at h
      simp only [trimQueue, h]
      rw [if_pos (by omega)]
      rw [trimQueue_eq_of_le (by omega)]
      rfl

theorem applyOps_append (s : Store) (ops₁ ops₂ : List StoreOp) :
    Store.applyOps s (ops₁ ++ ops₂) = Store.applyOps (Store.applyOps s ops₁) ops₂ := by
  simp [Store.applyOps, List.foldl_append]

theorem applyOps_length_le (ops : List StoreOp) (s : Store)
    (hl : s.logs.length ≤ maxLogs) (hm : s.metrics.length ≤ maxMetrics) :
    (Store.applyOps s ops).logs.length ≤ maxLogs ∧
      (Store.applyOps s ops).metrics.length ≤ maxMetrics := by
  induction ops generalizing s with
  | nil => exact ⟨hl, hm⟩
  | cons op rest ih =>
      cases op with
      | addLog l =>
          exact ih _ (trimQueue_length_le _ _) hm
      | addMetric m =>
          exact ih _ hl (trimQueue_length_le _ _)

theorem dictLookup_map_enqueue (d : List (String × List α)) (key : String)
    (x : α) (k : String) :
    dictLookup (d.map fun p => if p.1 == key then (p.1, p.2 ++ [x]) else p) k
      = (dictLookup d k).map (fun q => if k == key then q ++ [x] else q) := by
  induction d with
  | nil => rfl
  | cons p d' ih =>
      simp only [List.map_cons, dictLookup, List.find?] at *
      by_cases hpkey : p.1 == key
      · simp only [hpkey, if_true]
        by_cases hpk : p.1 == k
        · have h1 : p.1 = key := by simpa using hpkey
          have h2 : p.1 = k := by simpa using hpk
          simp [hpk, ← h1, ← h2]
        · simp only [hpk]
          simpa [hpk] using ih
      · simp only [hpkey, if_false]
        by_cases hpk : p.1 == k
        · have h2 : p.1 = k := by simpa using hpk
          have : ¬ (k == key) := by
            rw [← h2]; simpa using hpkey
          simp [hpk, this]
        · simpa [hpk] using ih

/-- `GetOrAddQueue(dict, key).Enqueue(x)` appends `x` to the queue under
`key` (creating it if missing) and leaves every other key's queue alone. -/
theorem dictLookup_getOrAddEnqueue (d : List (String × List α)) (key : String)
    (x : α) (k : String) :
    dictLookup (getOrAddEnqueue d key x) k =
      if k = key then some ((dictLookup d k).getD [] ++ [x]) else dictLookup d k := by
  unfold getOrAddEnqueue
  by_cases hany : d.any (fun p => p.1 == key)
  · rw [if_pos hany, dictLookup_map_enqueue]
    by_cases hk : k = key
    · subst hk
      have hsome : (dictLookup d k).isSome := by
        unfold dictLookup
        simp only [Option.isSome_map', List.find?_isSome]
        simpa using List.any_eq_true.mp hany
      obtain ⟨q, hq⟩ := Option.isSome_iff_exists.mp hsome
      simp [hq]
    · have hbeq : ¬ (k == key) := by simpa using hk
      simp [hk, hbeq]
  · rw [if_neg hany]
    have hfind : List.find? (fun p => p.1 == key) d = none := by
      rw [List.find?_eq_none]
      intro p hp
      have hany' : d.any (fun p => p.1 == key) = false := Bool.eq_false_iff.mpr hany
      rw [List.any_eq_false] at hany'
      exact hany' p hp
    by_cases hk : k = key
    · subst hk
      unfold dictLookup
      rw [List.find?_append, hfind]
      simp [hfind, List.find?]
    · have hbeq : ¬ ((key : String) == k) := by simpa using fun h => hk h.symm
      unfold dictLookup
      rw [List.find?_append]
      simp [hk, List.find?, hbeq]

/-- Invariant of the metric-name index: every queue in `_metricsByName`
holds only entries whose `Name` equals the queue's key (entries are only
ever enqueued there by `AddMetric` under `metric.Name`). -/
theorem metricsByName_names (ops : List StoreOp) :
    ∀ k q, dictLookup (Store.applyOps Store.init ops).metricsByName k = some q →
      ∀ e ∈ q, e.name = k := by
  suffices h : ∀ (ops : List StoreOp) (s : Store),
      (∀ k q, dictLookup s.metricsByName k = some q → ∀ e ∈ q, e.name = k) →
      ∀ k q, dictLookup (Store.applyOps s ops).metricsByName k = some q →
        ∀ e ∈ q, e.name = k by
    refine h ops Store.init ?_
    intro k q hq
    simp [Store.init, dictLookup, List.find?] at hq
  intro ops
  induction ops with
  | nil => intro s hs; exact hs
  | cons op rest ih =>
      intro s hs
      cases op with
      | addLog l => exact ih _ hs
      | addMetric m =>
          refine ih _ ?_
          intro k q hq e he
          have : (Store.addMetric s m).1.metricsByName
              = getOrAddEnqueue s.metricsByName m.name { m with id := s.metricIdCounter + 1 } := rfl
          rw [this, dictLookup_getOrAddEnqueue] at hq
          by_cases hk : k = m.name
          · rw [if_pos hk] at hq
            obtain rfl : (dictLookup s.metricsByName k).getD []
                ++ [{ m with id := s.metricIdCounter + 1 }] = q := by
              simpa using hq
            rcases List.mem_append.mp he with hmem | hmem
            · cases hdq : dictLookup s.metricsByName k with
              | none => simp [hdq] at hmem
              | some q' =>
                  rw [hdq] at hmem
                  exact hs k q' hdq e hmem
            · simp only [List.mem_singleton] at hmem
              subst hmem
              exact hk.symm
          · rw [if_neg hk] at hq
            exact hs k q hq e he

theorem dictLookup_map_set (d : List (String × α)) (key : String) (v : α)
    (k : String) :
    dictLookup (d.map fun p => if p.1 == key then (p.1, v) else p) k
      = (dictLookup d k).map (fun old => if k == key then v else old) := by
  induction d with
  | nil => rfl
  | cons p d' ih =>
      simp only [List.map_cons, dictLookup, List.find?] at *
      by_cases hpkey : p.1 == key
      · simp only [hpkey, if_true]
        by_cases hpk : p.1 == k
        · have h1 : p.1 = key := by simpa using hpkey
          have h2 : p.1 = k := by simpa using hpk
          simp [hpk, ← h1, ← h2]
        · simp only [hpk]
          simpa [hpk] using ih
      · simp only [hpkey, if_false]
        by_cases hpk : p.1 == k
        · have h2 : p.1 = k := by simpa using hpk
          have : ¬ (k == key) := by
            rw [← h2]; simpa using hpkey
          simp [hpk, this]
        · simpa [hpk] using ih

/-- The dictionary indexer `d[k] = v`: afterwards `k` maps to `v` and
every other key is unchanged. -/
theorem dictLookup_dictSet (d : List (String × α)) (key : String) (v : α)
    (k : String) :
    dictLookup (dictSet d key v) k
      = if k = key then some v else dictLookup d k := by
  unfold dictSet
  by_cases hany : d.any (fun p => p.1 == key)
  · rw [if_pos hany, dictLookup_map_set]
    by_cases hk : k = key
    · subst hk
      have hsome : (dictLookup d k).isSome := by
        unfold dictLookup
        simp only [Option.isSome_map', List.find?_isSome]
        simpa using List.any_eq_true.mp hany
      obtain ⟨q, hq⟩ := Option.isSome_iff_exists.mp hsome
      simp [hq]
    · have hbeq : ¬ (k == key) := by simpa using hk
      simp [hk, hbeq]
  · rw [if_neg hany]
    have hfind : List.find? (fun p => p.1 == key) d = none := by
      rw [List.find?_eq_none]
      intro p hp
      have hany' : d.any (fun p => p.1 == key) = false := Bool.eq_false_iff.mpr hany
      rw [List.any_eq_false] at hany'
      exact hany' p hp
    by_cases hk : k = key
    · subst hk
      unfold dictLookup
      rw [List.find?_append, hfind]
      simp [List.find?]
    · have hbeq : ¬ ((key : String) == k) := by simpa using fun h => hk h.symm
      unfold dictLookup
      rw [List.find?_append]
      simp [hk, List.find?, hbeq]

/-- Setting the same key twice keeps only the second value. -/
theorem dictSet_dictSet_same (d : List (String × α)) (k : String) (v v' : α) :
    dictSet (dictSet d k v) k v' = dictSet d k v' := by
  unfold dictSet
  by_cases hany : d.any (fun p => p.1 == k)
  · rw [if_pos hany]
    have hany2 : (d.map fun p => if p.1 == k then (p.1, v) else p).any
        (fun p => p.1 == k) = true := by
      rw [List.any_map]
      refine List.any_eq_true.mpr ?_
      obtain ⟨p, hp, hpk⟩ := List.any_eq_true.mp hany
      refine ⟨p, hp, ?_⟩
      simp only [Function.comp]
      by_cases h : p.1 == k
      · simp [h]
      · simp [h] at hpk
    rw [if_pos hany2, if_pos hany, List.map_map]
    refine List.map_congr_left ?_
    intro p _
    simp only [Function.comp]
    by_cases h : p.1 == k <;> simp [h]
  · rw [if_neg hany]
    have hany2 : (d ++ [(k, v)]).any (fun p => p.1 == k) = true := by
      simp [List.any_append]
    rw [if_pos hany2, if_neg hany, List.map_append]
    have hmapd : d.map (fun p => if p.1 == k then (p.1, v') else p) = d := by
      have hpt : ∀ p ∈ d, (if p.1 == k then (p.1, v') else p) = id p := by
        intro p hp
        have hany' : d.any (fun p => p.1 == k) = false := Bool.eq_false_iff.mpr hany
        rw [List.any_eq_false] at hany'
        simp [hany' p hp]
      rw [List.map_congr_left hpt, List.map_id]
    rw [hmapd]
    simp

theorem range1_concat (s n : Nat) :
    List.range' s (n + 1) = List.range' s n ++ [s + n] := by
  simpa using @List.range'_concat 1 s n

theorem c2Entry_id (i : Nat) : (c2Entry i).id = i := rfl

theorem c2Store_succ (n : Nat) :
    c2Store (n + 1) = ((c2Store n).addLog c2Log).1 := by
  rw [c2Store, List.replicate_succ', applyOps_append]
  rfl

theorem map_c2Entry_concat (n : Nat) :
    (List.range' 1 n).map c2Entry ++ [c2Entry (n + 1)]
      = (List.range' 1 (n + 1)).map c2Entry := by
  rw [range1_concat, List.map_append]
  simp [Nat.add_comm]

/-- State of the store after `n ≤ capacity` insertions of `c2Log`: ids
`1..n` everywhere, no trimming yet. -/
theorem c2Store_eq : ∀ n, n ≤ maxLogs →
    c2Store n =
      { logIdCounter := n,
        logs := (List.range' 1 n).map c2Entry,
        logsByService :=
          if n = 0 then [] else [("svc", (List.range' 1 n).map c2Entry)],
        logsByTraceId :=
          if n = 0 then [] else [("t", (List.range' 1 n).map c2Entry)] } := by
  intro n
  induction n with
  | zero =>
      intro _
      simp [c2Store, Store.applyOps, Store.init]
  | succ n ih =>
      intro h
      rw [c2Store_succ, ih (by omega)]
      simp only [Store.addLog, Store.mk.injEq, and_true, true_and,
        Nat.succ_ne_zero, if_false]
      refine ⟨?_, ?_, ?_⟩
      · -- primary queue: no trim needed at n + 1 ≤ maxLogs
        rw [show ({ c2Log with id := n + 1 } : LogEntry) = c2Entry (n + 1) from rfl,
          map_c2Entry_concat, trimQueue_eq_of_le (by simp; omega)]
      · -- service index
        cases n with
        | zero => simp [getOrAddEnqueue, c2Log, c2Entry]
        | succ m =>
            rw [if_neg (by omega), ← map_c2Entry_concat (m + 1)]
            simp [getOrAddEnqueue, c2Log, c2Entry]
      · -- trace-id index
        rw [if_pos (by simp [c2Log])]
        cases n with
        | zero => simp [getOrAddEnqueue, c2Log, c2Entry]
        | succ m =>
            rw [if_neg (by omega), ← map_c2Entry_concat (m + 1)]
            simp [getOrAddEnqueue, c2Log, c2Entry]

/-- The `(capacity + 1)`-st insertion evicts exactly the first entry from
the primary queue, while the trace-id index still holds all
`capacity + 1` entries. -/
theorem c2Store_max_succ :
    c2Store (maxLogs + 1) =
      { logIdCounter := maxLogs + 1,
        logs := (List.range' 2 maxLogs).map c2Entry,
        logsByService := [("svc", (List.range' 1 (maxLogs + 1)).map c2Entry)],
        logsByTraceId := [("t", (List.range' 1 (maxLogs + 1)).map c2Entry)] } := by
  rw [c2Store_succ, c2Store_eq maxLogs le_rfl]
  have hmax0 : maxLogs ≠ 0 := by simp [maxLogs]
  simp only [Store.addLog, Store.mk.injEq, and_true, true_and, hmax0, if_false]
  refine ⟨?_, ?_, ?_⟩
  · rw [show ({ c2Log with id := maxLogs + 1 } : LogEntry) = c2Entry (maxLogs + 1) from rfl,
      map_c2Entry_concat, trimQueue_eq_tail (by simp)]
    rw [show List.range' 1 (maxLogs + 1) = 1 :: List.range' 2 maxLogs from
      List.range'_succ 1 maxLogs 1]
    rfl
  · rw [← map_c2Entry_concat maxLogs]
    simp [getOrAddEnqueue, c2Log, c2Entry, hmax0]
  · rw [if_pos (by simp [c2Log]), ← map_c2Entry_concat maxLogs]
    simp [getOrAddEnqueue, c2Log, c2Entry, hmax0]

/-! ## Claims -/

/-- C1. For every sequence of `AddLog` / `AddMetric` calls starting from a
fresh store: after each call the logs collection holds at most 100,000
entries and the metrics collection at most 100,000; and one further `Add`
appends the new (id-stamped) entry and, exactly when that would push the
collection past its capacity, removes exactly the single oldest-inserted
element (the queue head) — so the retained entries are always the most
recently inserted ones. -/
theorem addLog_capacity_fifo (ops : List StoreOp) (l : LogEntry) (m : MetricEntry) :
    (Store.applyOps Store.init ops).logs.length ≤ maxLogs ∧
    (Store.applyOps Store.init ops).metrics.length ≤ maxMetrics ∧
    (((Store.applyOps Store.init ops).addLog l).1.logs =
      (let s := Store.applyOps Store.init ops
       let appended := s.logs ++ [{ l with id := s.logIdCounter + 1 }]
       if s.logs.length < maxLogs then appended else appended.tail)) ∧
    (((Store.applyOps Store.init ops).addMetric m).1.metrics =
      (let s := Store.applyOps Store.init ops
       let appended := s.metrics ++ [{ m with id := s.metricIdCounter + 1 }]
       if s.metrics.length < maxMetrics then appended else appended.tail)) := by
  obtain ⟨hl, hm⟩ := applyOps_length_le ops Store.init (by simp [Store.init]) (by simp [Store.init])
  refine ⟨hl, hm, ?_, ?_⟩
  · show trimQueue maxLogs _ = _
    by_cases h : (Store.applyOps Store.init ops).logs.length < maxLogs
    · rw [if_pos h]
      exact trimQueue_eq_of_le (by simp; omega)
    · rw [if_neg h]
      have heq : (Store.applyOps Store.init ops).logs.length = maxLogs := le_antisymm hl (not_lt.mp h)
      exact trimQueue_eq_tail (by simp [heq])
  · show trimQueue maxMetrics _ = _
    by_cases h : (Store.applyOps Store.init ops).metrics.length < maxMetrics
    · rw [if_pos h]
      exact trimQueue_eq_of_le (by simp; omega)
    · rw [if_neg h]
      have heq : (Store.applyOps Store.init ops).metrics.length = maxMetrics :=
        le_antisymm hm (not_lt.mp h)
      exact trimQueue_eq_tail (by simp [heq])

/-- A `QueryLogs` whose trace-id filter hits the index, with no other
filter, returns the (sorted, limited) index queue itself. -/
theorem queryLogs_traceId_hit (s : Store) (t : String) (q : List LogEntry)
    (lim : Nat) (ht : ¬ t = "") (hq : dictLookup s.logsByTraceId t = some q) :
    s.queryLogs none none none none (some t) lim
      = (orderByDescending (fun l => l.timestamp) q).take lim := by
  unfold Store.queryLogs
  simp [ht, hq]

/-- C2 (counterexample). The claim fails on the code at an explicit input:
after 100,001 `AddLog` calls of the same record (trace id `"t"`), the
first-inserted entry has been evicted from the primary logs collection, yet
a `QueryLogs` answered from the trace-id index still returns it. -/
theorem c2_counterexample :
    c2Entry 1 ∉ (c2Store (maxLogs + 1)).logs ∧
    c2Entry 1 ∈ (c2Store (maxLogs + 1)).queryLogs none none none none
      (some "t") (maxLogs + 1) := by
  rw [c2Store_max_succ]
  constructor
  · intro hmem
    rw [List.mem_map] at hmem
    obtain ⟨i, hi, hei⟩ := hmem
    have : i = 1 := by
      have := congrArg LogEntry.id hei
      simpa [c2Entry_id] using this
    rw [List.mem_range'_1] at hi
    omega
  · rw [queryLogs_traceId_hit _ "t" ((List.range' 1 (maxLogs + 1)).map c2Entry) _
      (by decide) (by simp [dictLookup])]
    rw [List.take_of_length_le (by rw [length_orderByDescending]; simp)]
    rw [mem_orderByDescending, List.mem_map]
    exact ⟨1, by rw [List.mem_range'_1]; omega, rfl⟩

/-- C2 (amended). Queries never fault on evicted entries and a `QueryLogs`
that does not hit a secondary index (no service-name and no trace-id
filter) returns only entries still retained in the primary collection;
but — per the counterexample — an index-answered query may also return
entries already evicted from the primary collection, because eviction does
not remove index references. -/
theorem queryLogs_fullscan_retained (ops : List StoreOp) (level : Option LogLevel)
    (st et : Option Nat) (lim : Nat) (e : LogEntry)
    (h : e ∈ (Store.applyOps Store.init ops).queryLogs none level st et none lim) :
    e ∈ (Store.applyOps Store.init ops).logs := by
  unfold Store.queryLogs at h
  have h1 := List.take_subset _ _ h
  rw [mem_orderByDescending] at h1
  cases level <;> cases st <;> cases et <;>
    simp only [] at h1 <;>
    repeat (first
      | exact h1
      | exact List.mem_of_mem_filter h1
      | exact List.mem_of_mem_filter (List.mem_of_mem_filter h1)
      | exact List.mem_of_mem_filter (List.mem_of_mem_filter (List.mem_of_mem_filter h1)))

/-- Witness for the amended C2 theorem at a concrete input: one stored
entry, a filterless full-scan query, membership discharged by evaluation. -/
theorem queryLogs_fullscan_retained_witness :
    ({ c2Log with id := 1 } : LogEntry) ∈
      (Store.applyOps Store.init [.addLog c2Log]).queryLogs none none none none none 10 ∧
    ({ c2Log with id := 1 } : LogEntry) ∈ (Store.applyOps Store.init [.addLog c2Log]).logs :=
  have hmem : ({ c2Log with id := 1 } : LogEntry) ∈
      (Store.applyOps Store.init [.addLog c2Log]).queryLogs none none none none none 10 :=
    List.Mem.head _
  ⟨hmem, queryLogs_fullscan_retained [.addLog c2Log] none none none 10 _ hmem⟩

/-- C9. For every store state (reached by any operation sequence) holding
metric samples, a `QueryMetrics` whose name filter `n` hits the metric-name
index (`hq`) answers from that index rather than scanning the full
collection — every result is an element of the index queue `q` — returns
only samples whose name equals `n`, in descending timestamp order, and at
most `limit` of them. -/
theorem queryMetrics_by_name (ops : List StoreOp) (n : String)
    (st et : Option Nat) (lim : Nat) (q : List MetricEntry)
    (hn : ¬ n = "")
    (hq : dictLookup (Store.applyOps Store.init ops).metricsByName n = some q) :
    ((Store.applyOps Store.init ops).queryMetrics (some n) none st et lim).Pairwise
        (fun a b => b.timestamp ≤ a.timestamp) ∧
    ((Store.applyOps Store.init ops).queryMetrics (some n) none st et lim).length ≤ lim ∧
    (∀ e ∈ (Store.applyOps Store.init ops).queryMetrics (some n) none st et lim,
      e.name = n ∧ e ∈ q) := by
  have hbeq : ¬ (n == "") := by simpa using hn
  have hbase : ∀ (l : List MetricEntry),
      (∀ e ∈ l, e ∈ q) →
      ((orderByDescending (fun m => m.timestamp) l).take lim).Pairwise
          (fun a b => b.timestamp ≤ a.timestamp) ∧
      ((orderByDescending (fun m => m.timestamp) l).take lim).length ≤ lim ∧
      (∀ e ∈ (orderByDescending (fun m => m.timestamp) l).take lim,
        e.name = n ∧ e ∈ q) := by
    intro l hl
    refine ⟨?_, ?_, ?_⟩
    · exact List.Pairwise.take (sorted_orderByDescending _ _)
    · simp
    · intro e he
      have : e ∈ l := mem_orderByDescending.mp (List.take_subset _ _ he)
      exact ⟨metricsByName_names ops n q hq e (hl e this), hl e this⟩
  unfold Store.queryMetrics
  simp only [hbeq, if_false, hq]
  cases st <;> cases et <;>
    exact hbase _ (fun e he => by
      first
        | exact he
        | exact List.mem_of_mem_filter he
        | exact List.mem_of_mem_filter (List.mem_of_mem_filter he))

/-- Witness for C9 at a concrete store holding samples under the two
metric names `"a"` and `"b"`: both hypotheses evaluate, and the theorem is
applied at `n = "a"`, `limit = 2`. -/
theorem queryMetrics_by_name_witness :
    (¬ ("a" : String) = "") ∧
    (dictLookup (Store.applyOps Store.init c9Ops).metricsByName "a" = some c9Queue) ∧
    (((Store.applyOps Store.init c9Ops).queryMetrics (some "a") none none none 2).Pairwise
        (fun a b => b.timestamp ≤ a.timestamp) ∧
    ((Store.applyOps Store.init c9Ops).queryMetrics (some "a") none none none 2).length ≤ 2 ∧
    (∀ e ∈ (Store.applyOps Store.init c9Ops).queryMetrics (some "a") none none none 2,
      e.name = "a" ∧ e ∈ c9Queue)) :=
  ⟨by decide, by decide,
    queryMetrics_by_name c9Ops "a" none none 2 c9Queue (by decide) (by decide)⟩

/-- C5. Enqueueing into a connection's bounded outgoing queue is a total
function (the broadcaster is never blocked) and, for every queue within
its capacity of 1000: the queue stays within capacity; under capacity
nothing is lost (the message is appended, all queued messages kept); at
capacity exactly the oldest queued message (the head) is dropped — never
the newly enqueued one, which is always appended last; and the resulting
queue is a suffix of `q ++ [m]`, so the relative delivery order of all
undropped messages is preserved.  `BroadcastAsync` applies exactly this
enqueue to every open connection subscribed to the channel and leaves
every other connection untouched. -/
theorem ws_enqueue_drop_oldest (q : List (WsMessage α)) (ch ts : String)
    (p : α) (hlen : q.length ≤ wsQueueCapacity) :
    ((enqueueDropOldest q (wsEnvelope ch p ts)).length ≤ wsQueueCapacity) ∧
    (q.length < wsQueueCapacity →
      enqueueDropOldest q (wsEnvelope ch p ts) = q ++ [wsEnvelope ch p ts]) ∧
    (q.length = wsQueueCapacity →
      enqueueDropOldest q (wsEnvelope ch p ts) = q.tail ++ [wsEnvelope ch p ts]) ∧
    (enqueueDropOldest q (wsEnvelope ch p ts) <:+ q ++ [wsEnvelope ch p ts]) ∧
    (∀ conns : List (WsConnection α),
      broadcast conns ch p ts = conns.map (fun c =>
        if c.subscriptions.contains ch && c.isOpen then
          { c with queue := enqueueDropOldest c.queue (wsEnvelope ch p ts) }
        else c)) := by
  refine ⟨?_, ?_, ?_, ?_, fun conns => rfl⟩
  · unfold enqueueDropOldest
    by_cases h : q.length < wsQueueCapacity
    · simp [h]
      omega
    · rw [if_neg h]
      have hlen2 : q.length = wsQueueCapacity := le_antisymm hlen (Nat.le_of_not_lt h)
      simp [List.length_append, List.length_drop, hlen2, wsQueueCapacity]
  · intro h
    unfold enqueueDropOldest
    rw [if_pos h]
  · intro h
    unfold enqueueDropOldest
    rw [if_neg (by omega)]
    rw [show q.length + 1 - wsQueueCapacity = 1 by omega]
    rw [List.drop_one]
  · unfold enqueueDropOldest
    by_cases h : q.length < wsQueueCapacity
    · rw [if_pos h]
    · rw [if_neg h]
      obtain ⟨t, ht⟩ := List.drop_suffix (q.length + 1 - wsQueueCapacity) q
      exact ⟨t, by rw [← List.append_assoc, ht]⟩

/-- Witness for C5 at a concrete empty queue. -/
theorem ws_enqueue_drop_oldest_witness :
    (([] : List (WsMessage Nat)).length ≤ wsQueueCapacity) ∧
    ((enqueueDropOldest ([] : List (WsMessage Nat)) (wsEnvelope "metrics" 7 "ts")).length
        ≤ wsQueueCapacity) ∧
    (([] : List (WsMessage Nat)).length < wsQueueCapacity →
      enqueueDropOldest ([] : List (WsMessage Nat)) (wsEnvelope "metrics" 7 "ts")
        = [] ++ [wsEnvelope "metrics" 7 "ts"]) ∧
    (([] : List (WsMessage Nat)).length = wsQueueCapacity →
      enqueueDropOldest ([] : List (WsMessage Nat)) (wsEnvelope "metrics" 7 "ts")
        = List.tail [] ++ [wsEnvelope "metrics" 7 "ts"]) ∧
    (enqueueDropOldest ([] : List (WsMessage Nat)) (wsEnvelope "metrics" 7 "ts")
      <:+ [] ++ [wsEnvelope "metrics" 7 "ts"]) ∧
    (∀ conns : List (WsConnection Nat),
      broadcast conns "metrics" 7 "ts" = conns.map (fun c =>
        if c.subscriptions.contains "metrics" && c.isOpen then
          { c with queue := enqueueDropOldest c.queue (wsEnvelope "metrics" 7 "ts") }
        else c)) := by
  have h := ws_enqueue_drop_oldest ([] : List (WsMessage Nat)) "metrics" "ts" 7 (by decide)
  exact ⟨by decide, h.1, h.2.1, h.2.2.1, h.2.2.2.1, h.2.2.2.2⟩

/-- C7. Both adapters (`OtlpHelpers.MapSeverity` for gRPC,
`InMemoryStore.MapSeverityNumber` for JSON) bucket every OTLP severity
number 1–24 by the same ranges — 1–8 to Debug, 9–12 to Info, 13–16 to
Warn, 17–20 to Error, 21–24 to Fatal — and end to end, exporting one log
with severity 17 and service `"checkout"` over gRPC stores it and
`QueryLogs` filtered by `serviceName = "checkout"` returns it with level
`Error`. -/
theorem severity_mapping_and_checkout (n : Int) (h1 : 1 ≤ n) (h24 : n ≤ 24) :
    mapSeverity n = mapSeverityNumber n ∧
    (n ≤ 8 → mapSeverity n = .Debug) ∧
    (9 ≤ n ∧ n ≤ 12 → mapSeverity n = .Info) ∧
    (13 ≤ n ∧ n ≤ 16 → mapSeverity n = .Warn) ∧
    (17 ≤ n ∧ n ≤ 20 → mapSeverity n = .Error) ∧
    (21 ≤ n → mapSeverity n = .Fatal) ∧
    (c7Export.2 = none ∧
      (c7Export.1.queryLogs (some "checkout") none none none none 100).map
          (fun l => (l.level, l.serviceName, l.message))
        = [(.Error, "checkout", "payment failed")]) := by
  refine ⟨rfl, ?_, ?_, ?_, ?_, ?_, by constructor <;> rfl⟩ <;>
    · intro h
      unfold mapSeverity
      split_ifs <;> first | rfl | omega

/-- Witness for C7 at severity number 17. -/
theorem severity_mapping_and_checkout_witness :
    ((1 : Int) ≤ 17 ∧ (17 : Int) ≤ 24) ∧
    (mapSeverity 17 = mapSeverityNumber 17 ∧
    ((17 : Int) ≤ 8 → mapSeverity 17 = .Debug) ∧
    ((9 : Int) ≤ 17 ∧ (17 : Int) ≤ 12 → mapSeverity 17 = .Info) ∧
    ((13 : Int) ≤ 17 ∧ (17 : Int) ≤ 16 → mapSeverity 17 = .Warn) ∧
    ((17 : Int) ≤ 17 ∧ (17 : Int) ≤ 20 → mapSeverity 17 = .Error) ∧
    ((21 : Int) ≤ 17 → mapSeverity 17 = .Fatal) ∧
    (c7Export.2 = none ∧
      (c7Export.1.queryLogs (some "checkout") none none none none 100).map
          (fun l => (l.level, l.serviceName, l.message))
        = [(.Error, "checkout", "payment failed")])) :=
  ⟨by decide, severity_mapping_and_checkout 17 (by decide) (by decide)⟩

/-- C10. A severity number at or below zero (zero, unspecified, or
negative) maps to `Info` — not `Debug`, and not a rejection — in both the
gRPC and the JSON adapter; concretely, a JSON log record with no
`severityNumber` at all parses (is not rejected) with level `Info`, and so
does a gRPC record with the proto default severity 0. -/
theorem severity_out_of_range_info (n : Int) (h : n ≤ 0) :
    mapSeverity n = .Info ∧
    mapSeverityNumber n = .Info ∧
    mapSeverity n ≠ .Debug ∧
    ((parseLogEntry (.obj [("body", .obj [("stringValue", .str "x")])])
        "svc" none none 0).map (·.level) = some .Info) ∧
    ((convertLogRecordE {} "svc" none none "" "" 0).toOption.map (·.level)
      = some .Info) := by
  have hmap : mapSeverity n = .Info := by
    unfold mapSeverity
    split_ifs <;> first | rfl | omega
  have hmap2 : mapSeverityNumber n = .Info := by
    unfold mapSeverityNumber
    split_ifs <;> first | rfl | omega
  refine ⟨hmap, hmap2, ?_, by decide, by decide⟩
  simp [hmap]

/-- Witness for C10 at severity number 0 (the proto default /
"unspecified"). -/
theorem severity_out_of_range_info_witness :
    ((0 : Int) ≤ 0) ∧
    (mapSeverity 0 = .Info ∧
    mapSeverityNumber 0 = .Info ∧
    mapSeverity 0 ≠ .Debug ∧
    ((parseLogEntry (.obj [("body", .obj [("stringValue", .str "x")])])
        "svc" none none 0).map (·.level) = some .Info) ∧
    ((convertLogRecordE {} "svc" none none "" "" 0).toOption.map (·.level)
      = some .Info)) :=
  ⟨by decide, severity_out_of_range_info 0 (by decide)⟩

theorem hexDigitLower_toLower :
    ∀ n < 16, Char.toLower (hexDigitLower n) = hexDigitLower n := by
  decide

/-- Every `BytesToHex` result is a fixed point of ASCII lowercasing. -/
theorem bytesToHex_lowercase (bytes : List Nat) :
    bytesToHex bytes = toLowerAscii (bytesToHex bytes) := by
  unfold bytesToHex toLowerAscii
  show String.mk _ = String.mk _
  congr 1
  induction bytes with
  | nil => rfl
  | cons b bs ih =>
      rw [List.flatMap_cons, List.map_append]
      rw [show (([hexDigitLower (b % 256 / 16), hexDigitLower (b % 16)]).map Char.toLower)
          = [hexDigitLower (b % 256 / 16), hexDigitLower (b % 16)] by
        simp [hexDigitLower_toLower (b % 256 / 16) (by omega),
          hexDigitLower_toLower (b % 16) (by omega)]]
      rw [← ih]

/-- C3 (counterexample). The claim fails on the JSON ingestion path at an
explicit input: posting a logs envelope whose record carries the
uppercase trace id `"AB"` stores the entry with trace id `"AB"`, which is
not equal to its lowercase-hex normalization `"ab"`; likewise
`ParseTraceSpan` keeps `"AB"` verbatim for spans. -/
theorem c3_counterexample :
    ((postV1Logs c3Json Store.init 0).1.logs.map (·.traceId)) = ["AB"] ∧
    (parseTraceSpan (.obj [("traceId", .str "AB")]) "svc" 0).map (·.traceId)
      = some "AB" ∧
    toLowerAscii "AB" = "ab" ∧
    ("AB" : String) ≠ "ab" := by
  refine ⟨by decide, by decide, by decide, by decide⟩

/-- C3 (amended). The gRPC ingestion path does normalize: every trace or
span id it stores is `BytesToHex` of the raw bytes, always equal to its
own lowercase-hex normalization.  The JSON ingestion path stores the
submitted hex string byte for byte (no re-encoding, no case
normalization): a span id arrives and is stored verbatim, so only
already-lowercase inputs are canonical there. -/
theorem trace_ids_lowercase_grpc_verbatim_json :
    (∀ bytes : List Nat, bytesToHex bytes = toLowerAscii (bytesToHex bytes)) ∧
    (∀ (record : PLogRecord) (svc scn scv : String) (sv dep : Option String) (now : Nat),
      (convertLogRecordE record svc sv dep scn scv now).toOption.map (·.traceId)
        = (convertLogRecordE record svc sv dep scn scv now).toOption.map
            (fun e => toLowerAscii e.traceId)) ∧
    (∀ (t svc : String) (now : Nat),
      (parseTraceSpan (.obj [("traceId", .str t)]) svc now).map (·.traceId)
        = some t) := by
  refine ⟨bytesToHex_lowercase, ?_, ?_⟩
  · intro record svc scn scv sv dep now
    unfold convertLogRecordE
    cases htd : toAttributesDict record.attributes with
    | error e => rfl
    | ok attrs =>
        simp only [Except.toOption, bind, Except.bind, htd, pure, Except.pure, Option.map]
        rw [← bytesToHex_lowercase]
  · intro t svc now
    rfl

/-- C6. Evaluation at the failing input: the logs and traces JSON paths
accept a nanosecond timestamp both as a native number and as a numeric
string (stored value = nanoseconds truncated to milliseconds), but the
metrics JSON path (`ParseMetricEntry`) reads the data point's
`timeUnixNano`/`startTimeUnixNano` with a direct `GetUInt64()`, so the
numeric-string form — the very form its own `GetUInt64FromJsonElement`
helper exists for — throws and the metric is rejected (`null`, nothing
stored), while the identical metric with a native-number timestamp is
accepted and truncated. -/
theorem metrics_string_timestamp_rejected :
    (parseMetricEntry c6MetricNumTs "svc" 0).map (fun m => (m.name, m.timestamp, m.value))
      = some ("m", 1700000005123, 5) ∧
    parseMetricEntry c6MetricStrTs "svc" 0 = none ∧
    (parseLogEntry (.obj [("timeUnixNano", .num 1700000005123456789),
        ("body", .obj [("stringValue", .str "x")])]) "svc" none none 0).map (·.timestamp)
      = some 1700000005123 ∧
    (parseLogEntry (.obj [("timeUnixNano", .str "1700000005123456789"),
        ("body", .obj [("stringValue", .str "x")])]) "svc" none none 0).map (·.timestamp)
      = some 1700000005123 ∧
    (parseTraceSpan (.obj [("startTimeUnixNano", .num 1700000005123456789),
        ("endTimeUnixNano", .str "1700000005123456789")]) "svc" 0).map
        (fun sp => (sp.startTime, sp.endTime))
      = some (1700000005123, 1700000005123) := by
  refine ⟨by decide, ?_, by decide, by decide, by decide⟩
  decide

theorem addLogRecords_eq_filterMap (svc : String) (sv dep : Option String)
    (now : Nat) (s : Store) (records : List Json) :
    addLogRecords svc sv dep now s records
      = (records.filterMap (fun r => parseLogEntry r svc sv dep now)).foldl
          (fun s e => (s.addLog e).1) s := by
  induction records generalizing s with
  | nil => rfl
  | cons r rest ih =>
      simp only [addLogRecords, List.foldl_cons, List.filterMap_cons] at *
      cases parseLogEntry r svc sv dep now with
      | none => exact ih s
      | some e => exact ih ((s.addLog e).1)

theorem exportLogsLoop_append (svc : String) (sv dep : Option String)
    (scn scv : String) (now : Nat) (s : Store) (a r : Nat)
    (l1 l2 : List PLogRecord) :
    exportLogsLoop svc sv dep scn scv now s a r (l1 ++ l2)
      = (exportLogsLoop svc sv dep scn scv now
          (exportLogsLoop svc sv dep scn scv now s a r l1).1
          (exportLogsLoop svc sv dep scn scv now s a r l1).2.1
          (exportLogsLoop svc sv dep scn scv now s a r l1).2.2 l2) := by
  induction l1 generalizing s a r with
  | nil => rfl
  | cons x xs ih =>
      simp only [List.cons_append, exportLogsLoop]
      cases convertLogRecordE x svc sv dep scn scv now with
      | ok e => exact ih _ _ _
      | error e => exact ih _ _ _

theorem exportLogsLoop_all_ok (svc : String) (sv dep : Option String)
    (scn scv : String) (now : Nat) (records : List PLogRecord)
    (h : ∀ rec ∈ records, (convertLogRecordE rec svc sv dep scn scv now).isOk = true)
    (s : Store) (a r : Nat) :
    exportLogsLoop svc sv dep scn scv now s a r records
      = ((records.filterMap
            (fun rec => (convertLogRecordE rec svc sv dep scn scv now).toOption)).foldl
          (fun s e => (s.addLog e).1) s,
         a + records.length, r) := by
  induction records generalizing s a with
  | nil => simp [exportLogsLoop]
  | cons x xs ih =>
      have hx := h x (List.mem_cons_self x xs)
      simp only [exportLogsLoop, List.filterMap_cons]
      cases hconv : convertLogRecordE x svc sv dep scn scv now with
      | error e => rw [hconv] at hx; cases hx
      | ok e =>
          simp only [Except.toOption, List.foldl_cons, List.length_cons]
          rw [ih (fun rec hr => h rec (List.mem_cons_of_mem x hr)) _ (a + 1)]
          simp only [Prod.mk.injEq]
          exact ⟨rfl, by omega, trivial⟩

theorem foldl_addLog_char (es : List LogEntry) : ∀ (s : Store),
    s.logs.length + es.length ≤ maxLogs →
    ((es.foldl (fun s e => (s.addLog e).1) s).logs
        = s.logs ++ assignIds s.logIdCounter es) ∧
    ((es.foldl (fun s e => (s.addLog e).1) s).logIdCounter
        = s.logIdCounter + es.length) := by
  induction es with
  | nil =>
      intro s _
      simp [assignIds]
  | cons e rest ih =>
      intro s h
      simp only [List.foldl_cons, List.length_cons] at *
      have haddlogs : ((s.addLog e).1).logs
          = s.logs ++ [{ e with id := s.logIdCounter + 1 }] := by
        show trimQueue maxLogs _ = _
        exact trimQueue_eq_of_le (by simp; omega)
      have hcnt : ((s.addLog e).1).logIdCounter = s.logIdCounter + 1 := rfl
      obtain ⟨h1, h2⟩ := ih ((s.addLog e).1) (by rw [haddlogs]; simp; omega)
      constructor
      · rw [h1, haddlogs, hcnt]
        simp [assignIds]
      · rw [h2, hcnt]
        omega

/-- C4 (counterexample). The claim fails on the HTTP/JSON path at an
explicit input: posting a batch of one valid and one malformed log record
stores the valid record (the malformed one never aborts its sibling) but
responds with `partialSuccess: null` — not the claimed "exactly 1
rejected plus an error message"; the malformed record is silently
skipped by `ParseLogEntry`. -/
theorem c4_counterexample :
    (postV1Logs c4Batch Store.init 0).2 = .fullSuccess ∧
    ((postV1Logs c4Batch Store.init 0).1.logs.map
        (fun l => (l.serviceName, l.message, l.timestamp, l.level)))
      = [("svc", "hello", 1000, .Info)] ∧
    parseLogEntry c4MalformedRecord "svc" none none 0 = none := by
  refine ⟨by decide, by decide, rfl⟩

/-- C4 (amended). gRPC `Export` behaves as the claim states: a batch of
`N` convertible records around one failing record stores all `N` (with
sequential ids, none lost) and reports a partial success of exactly 1
rejected record plus the error message.  The HTTP/JSON endpoint instead
stores the parseable records and silently skips malformed ones,
responding `partialSuccess: null`; it reports a rejection only when the
whole body fails, which the `/v1/logs` handler turns into
`rejectedLogRecords = 1`. -/
theorem export_partial_success_amended
    (pre post : List PLogRecord) (bad : PLogRecord)
    (svc : String) (sv dep : Option String) (scn scv : String) (now : Nat)
    (hpre : ∀ r ∈ pre, (convertLogRecordE r svc sv dep scn scv now).isOk = true)
    (hpost : ∀ r ∈ post, (convertLogRecordE r svc sv dep scn scv now).isOk = true)
    (hbad : (convertLogRecordE bad svc sv dep scn scv now).isOk = false)
    (hcap : pre.length + post.length ≤ maxLogs) :
    ((exportLogs svc sv dep scn scv now Store.init (pre ++ bad :: post)).2
        = some (1, "1 log records rejected due to processing errors")) ∧
    ((exportLogs svc sv dep scn scv now Store.init (pre ++ bad :: post)).1.logs
        = assignIds 0 ((pre ++ post).filterMap
            (fun r => (convertLogRecordE r svc sv dep scn scv now).toOption))) ∧
    (∀ (records : List Json) (s0 : Store),
      addLogsJson (mkLogsEnvelope svc records) s0 now
        = ((records.filterMap (fun r => parseLogEntry r svc none none now)).foldl
            (fun s e => (s.addLog e).1) s0, .ok ())) := by
  have hloop : exportLogsLoop svc sv dep scn scv now Store.init 0 0 (pre ++ bad :: post)
      = (((pre ++ post).filterMap
            (fun r => (convertLogRecordE r svc sv dep scn scv now).toOption)).foldl
          (fun s e => (s.addLog e).1) Store.init,
         pre.length + post.length, 1) := by
    rw [exportLogsLoop_append, exportLogsLoop_all_ok svc sv dep scn scv now pre hpre]
    simp only [exportLogsLoop]
    cases hconv : convertLogRecordE bad svc sv dep scn scv now with
    | ok e => rw [hconv] at hbad; cases hbad
    | error e =>
        rw [exportLogsLoop_all_ok svc sv dep scn scv now post hpost]
        rw [List.filterMap_append, List.foldl_append]
        simp
  refine ⟨?_, ?_, ?_⟩
  · show (exportLogs svc sv dep scn scv now Store.init (pre ++ bad :: post)).2 = _
    unfold exportLogs
    rw [hloop]
    show exportLogsResponse 1 = some (1, "1 log records rejected due to processing errors")
    decide
  · show (exportLogs svc sv dep scn scv now Store.init (pre ++ bad :: post)).1.logs = _
    unfold exportLogs
    rw [hloop]
    have hlen : ((pre ++ post).filterMap
        (fun r => (convertLogRecordE r svc sv dep scn scv now).toOption)).length ≤ maxLogs := by
      calc ((pre ++ post).filterMap _).length ≤ (pre ++ post).length :=
            List.length_filterMap_le _ _
        _ ≤ maxLogs := by simpa using hcap
    have := (foldl_addLog_char
      ((pre ++ post).filterMap
        (fun r => (convertLogRecordE r svc sv dep scn scv now).toOption))
      Store.init (by simpa [Store.init] using hlen)).1
    simpa [Store.init] using this
  · intro records s0
    have hred : addLogsJson (mkLogsEnvelope svc records) s0 now
        = (addLogRecords svc none none now s0 records, .ok ()) := rfl
    rw [hred, addLogRecords_eq_filterMap]

/-- Witness for the amended C4 theorem: one valid gRPC record and one
record made malformed by duplicate attribute keys. -/
theorem export_partial_success_amended_witness :
    (∀ r ∈ [c4GrpcValid], (convertLogRecordE r "svc" none none "" "" 0).isOk = true) ∧
    (∀ r ∈ ([] : List PLogRecord), (convertLogRecordE r "svc" none none "" "" 0).isOk = true) ∧
    ((convertLogRecordE c4GrpcBad "svc" none none "" "" 0).isOk = false) ∧
    ([c4GrpcValid].length + ([] : List PLogRecord).length ≤ maxLogs) ∧
    (((exportLogs "svc" none none "" "" 0 Store.init ([c4GrpcValid] ++ c4GrpcBad :: [])).2
        = some (1, "1 log records rejected due to processing errors")) ∧
    ((exportLogs "svc" none none "" "" 0 Store.init ([c4GrpcValid] ++ c4GrpcBad :: [])).1.logs
        = assignIds 0 (([c4GrpcValid] ++ []).filterMap
            (fun r => (convertLogRecordE r "svc" none none "" "" 0).toOption))) ∧
    (∀ (records : List Json) (s0 : Store),
      addLogsJson (mkLogsEnvelope "svc" records) s0 0
        = ((records.filterMap (fun r => parseLogEntry r "svc" none none 0)).foldl
            (fun s e => (s.addLog e).1) s0, .ok ()))) :=
  ⟨by decide, by decide, by decide, by decide,
    export_partial_success_amended [c4GrpcValid] [] c4GrpcBad "svc" none none "" "" 0
      (by decide) (by decide) (by decide) (by decide)⟩

/-- C8 (counterexample). The claim fails on the code at an explicit
input: converting a Summary data point (count 3, sum 7, one quantile 0.50
of value 4) yields count, sum, and quantile samples, but the quantile
sample's `aggregate` attribute is the plain string `"quantile"` — the
quantile itself sits in a separate `quantile` attribute — not the claimed
discriminator `"quantile:<q>"`; the same shape survives into the stored
`MetricEntry` values. -/
theorem c8_counterexample :
    convertSummaryDataPoint 0 c8Dp
      = .ok [(3, 2, [("aggregate", "count")]),
             (7, 2, [("aggregate", "sum")]),
             (4, 2, [("aggregate", "quantile"), ("quantile", "0.50")])] ∧
    dictLookup [(("aggregate" : String), ("quantile" : String)), ("quantile", "0.50")]
        "aggregate" = some "quantile" ∧
    ¬ dictLookup [(("aggregate" : String), ("quantile" : String)), ("quantile", "0.50")]
        "aggregate" = some "quantile:0.50" ∧
    ¬ dictLookup [(("aggregate" : String), ("quantile" : String)), ("quantile", "0.50")]
        "aggregate" = some "quantile:0.5" ∧
    convertSummaryMetric { name := "lat", dataPoints := [c8Dp] } "svc" "" "" 0
      = .ok [{ name := "lat", description := some "", unit := some "", value := 3,
               type := .Gauge, timestamp := 2, serviceName := "svc",
               attributes := [("aggregate", "count")] },
             { name := "lat", description := some "", unit := some "", value := 7,
               type := .Gauge, timestamp := 2, serviceName := "svc",
               attributes := [("aggregate", "sum")] },
             { name := "lat", description := some "", unit := some "", value := 4,
               type := .Gauge, timestamp := 2, serviceName := "svc",
               attributes := [("aggregate", "quantile"), ("quantile", "0.50")] }] := by
  refine ⟨rfl, by decide, by decide, by decide, rfl⟩

/-- C8 (amended). A Summary data point whose attributes convert to `base`
expands into one sample per count, sum, and quantile value, all sharing
the data point's attributes and timestamp: the count and sum samples
carry `aggregate = "count"` / `aggregate = "sum"`, and each quantile
sample carries `aggregate = "quantile"` together with a separate
`quantile` attribute holding the quantile's two-decimal rendering — every
other attribute key reads exactly as in `base`. -/
theorem summary_quantile_aggregate (now : Nat) (dp : SummaryDataPoint)
    (base : List (String × String))
    (h : toStringAttributesDict dp.attributes = .ok base) :
    ∃ qs,
      convertSummaryDataPoint now dp
        = .ok (((dp.count : Int),
                 (if dp.timeUnixNano > 0 then nanosToDateTime now dp.timeUnixNano else now),
                 dictSet base "aggregate" "count")
            :: (dp.sum,
                 (if dp.timeUnixNano > 0 then nanosToDateTime now dp.timeUnixNano else now),
                 dictSet base "aggregate" "sum") :: qs) ∧
      List.Forall₂ (fun (q : SummaryQuantile) (t : DoubleVal × Nat × List (String × String)) =>
          t.1 = q.value ∧
          t.2.1 = (if dp.timeUnixNano > 0 then nanosToDateTime now dp.timeUnixNano else now) ∧
          dictLookup t.2.2 "aggregate" = some "quantile" ∧
          dictLookup t.2.2 "quantile" = some q.quantileF2 ∧
          (∀ k, ¬ k = "aggregate" → ¬ k = "quantile" →
            dictLookup t.2.2 k = dictLookup base k))
        dp.quantileValues qs := by
  refine ⟨dp.quantileValues.map (fun q =>
    (q.value,
     (if dp.timeUnixNano > 0 then nanosToDateTime now dp.timeUnixNano else now),
     dictSet (dictSet (dictSet base "aggregate" "sum") "aggregate" "quantile")
       "quantile" q.quantileF2)), ?_, ?_⟩
  · unfold convertSummaryDataPoint
    simp only [bind, Except.bind, h, pure, Except.pure]
    rw [dictSet_dictSet_same]
  · rw [List.forall₂_map_right_iff]
    refine List.forall₂_same.mpr ?_
    intro q _
    refine ⟨rfl, rfl, ?_, ?_, ?_⟩
    · rw [dictLookup_dictSet, if_neg (by decide), dictLookup_dictSet, if_pos rfl]
    · rw [dictLookup_dictSet, if_pos rfl]
    · intro k hka hkq
      rw [dictLookup_dictSet, if_neg hkq, dictLookup_dictSet, if_neg hka,
        dictLookup_dictSet, if_neg hka]

/-- Witness for the amended C8 theorem at the concrete Summary data
point. -/
theorem summary_quantile_aggregate_witness :
    (toStringAttributesDict c8Dp.attributes = .ok []) ∧
    (∃ qs,
      convertSummaryDataPoint 0 c8Dp
        = .ok (((c8Dp.count : Int),
                 (if c8Dp.timeUnixNano > 0 then nanosToDateTime 0 c8Dp.timeUnixNano else 0),
                 dictSet [] "aggregate" "count")
            :: (c8Dp.sum,
                 (if c8Dp.timeUnixNano > 0 then nanosToDateTime 0 c8Dp.timeUnixNano else 0),
                 dictSet [] "aggregate" "sum") :: qs) ∧
      List.Forall₂ (fun (q : SummaryQuantile) (t : DoubleVal × Nat × List (String × String)) =>
          t.1 = q.value ∧
          t.2.1 = (if c8Dp.timeUnixNano > 0 then nanosToDateTime 0 c8Dp.timeUnixNano else 0) ∧
          dictLookup t.2.2 "aggregate" = some "quantile" ∧
          dictLookup t.2.2 "quantile" = some q.quantileF2 ∧
          (∀ k, ¬ k = "aggregate" → ¬ k = "quantile" →
            dictLookup t.2.2 k = dictLookup [] k))
        c8Dp.quantileValues qs) :=
  ⟨rfl, summary_quantile_aggregate 0 c8Dp [] rfl⟩

end Prism
